import Mathlib

/-
Verification of the CAD-to-BIM extraction engine.

Shallow embedding of the relevant parts of the backend:
  * `IfcGen`   — src/backend/ifc_generator.py (length normalisation, host-wall
                 resolution, opening relationships, opening sizing, boolean clipping)
  * `DxfParse` — src/backend/dxf_parser.py (layer tokenisation and rule scoring)
  * `GeomExt`  — src/backend/geometry_extractor.py (element classification,
                 unit inference, space synthesis, space adjacency)

Machine floats of the source are modelled as exact rationals (ℚ); Python
dictionaries with optional keys are modelled as `Option` fields.  The file is
organised with all definitions first and all lemmas/theorems afterwards.
-/

/-- ASCII lowercase of a string, modelling Python `str.lower()` (the layer and
type names handled by the backend are ASCII). -/
def strLower (s : String) : String :=
  String.mk (s.data.map Char.toLower)

/-- ASCII uppercase of a string, modelling Python `str.upper()`. -/
def strUpper (s : String) : String :=
  String.mk (s.data.map Char.toUpper)

/-- Whether `p` is a leading segment of `s` (character lists). -/
def startsWithC : List Char → List Char → Bool
  | [], _ => true
  | _ :: _, [] => false
  | a :: as, b :: bs => a = b && startsWithC as bs

/-- Whether `p` occurs contiguously inside `s`, modelling Python
`p in s` on strings. -/
def containsC (p : List Char) : List Char → Bool
  | [] => startsWithC p []
  | c :: t => startsWithC p (c :: t) || containsC p t

/-- Whether the string `pat` occurs inside the string `s` (Python `pat in s`). -/
def hasSub (pat s : String) : Bool :=
  containsC pat.data s.data

namespace IfcGen

/-- Embedding of the first line of `IFCGenerator._normalize_length`
(src/backend/ifc_generator.py): `scale = self.unit_scale or 1.0`
(a zero or unset unit scale falls back to `1.0`). -/
def normalizeScale (unitScale : ℚ) : ℚ :=
  if unitScale = 0 then 1 else unitScale

/-- Embedding of the candidate selection of `_normalize_length`: a missing or
non-numeric value (`none`) and a non-positive value are rejected; a metre-scale
magnitude is up-converted when the drawing works in small units
(`scale < 0.1 and abs(candidate) < 10.0`). -/
def normalizeCandidate (rawValue : Option ℚ) (scale : ℚ) : Option ℚ :=
  match rawValue with
  | none => none
  | some v =>
    if v ≤ 0 then none
    else if scale < 1/10 ∧ |v| < 10 then some (v / scale)
    else some v

/-- Embedding of `IFCGenerator._normalize_length`: the rejected candidate falls
back to `default_m / scale`, and the result is floored at `min_m / scale`
(`candidate = max(min_units, default_m / scale)` when below the floor). -/
def normalizeLength (rawValue : Option ℚ) (defaultM : ℚ) (minM : ℚ) (unitScale : ℚ) : ℚ :=
  let scale := normalizeScale unitScale
  let cand := (normalizeCandidate rawValue scale).getD (defaultM / scale)
  if cand < minM / scale then max (minM / scale) (defaultM / scale) else cand

/-- A raw property value is usable when it is present, numeric and positive;
this mirrors the `isinstance` / `candidate <= 0` tests of `_normalize_length`. -/
def rawUsable : Option ℚ → Bool
  | none => false
  | some v => decide (0 < v)

/-- A wall's captured 2D line segment, as stored in `walls_geo` by
`_build_native_ifc` (a pair of endpoints taken from the element's
`points` or `start`/`end` geometry). -/
structure Seg where
  a : ℚ × ℚ
  b : ℚ × ℚ

/-- Embedding of `point_segment_distance` in `_build_native_ifc`
(src/backend/ifc_generator.py), returning the SQUARE of the Euclidean
distance: the source computes `math.hypot(dx, dy)` and only ever compares
these distances with `<`, and the square root is strictly monotone on
non-negative numbers, so comparisons of the squares agree with comparisons
of the distances.  The degenerate-segment guard (`seg_len2 <= 1e-9`) and the
clamped projection parameter `t` are kept as in the source. -/
def distSq (p : ℚ × ℚ) (s : Seg) : ℚ :=
  let vx := s.b.1 - s.a.1
  let vy := s.b.2 - s.a.2
  let wx := p.1 - s.a.1
  let wy := p.2 - s.a.2
  let segLen2 := vx * vx + vy * vy
  if segLen2 ≤ 1/1000000000 then wx * wx + wy * wy
  else
    let t := max 0 (min 1 ((wx * vx + wy * vy) / segLen2))
    let dx := wx - t * vx
    let dy := wy - t * vy
    dx * dx + dy * dy

/-- Embedding of the scan inside `find_host_wall`: walk the wall list keeping
the strictly closest wall seen so far (`if d < best_d`), starting from
`best_wall = None, best_d = inf`; `i` is the position of the next wall. -/
def scanBest (p : ℚ × ℚ) : Option (ℕ × ℚ) → ℕ → List Seg → Option (ℕ × ℚ)
  | acc, _, [] => acc
  | acc, i, w :: rest =>
    let d := distSq p w
    match acc with
    | none => scanBest p (some (i, d)) (i + 1) rest
    | some (bi, bd) =>
      if d < bd then scanBest p (some (i, d)) (i + 1) rest
      else scanBest p (some (bi, bd)) (i + 1) rest

/-- Embedding of `find_host_wall` (src/backend/ifc_generator.py): the index of
the wall whose segment minimises the point-to-segment distance from the
opening's anchor point; `none` only when no wall segment was captured.
Despite the comment in the source about a "reasonable cutoff", no
maximum-distance cutoff is applied. -/
def findHostWall (walls : List Seg) (p : ℚ × ℚ) : Option ℕ :=
  (scanBest p none 0 walls).map Prod.fst

/-- The relationship entities created by `_build_native_ifc`:
`IfcRelVoidsElement` (host wall voided by an opening) and
`IfcRelFillsElement` (opening filled by a door or window).  Products are
identified by indices; each opening is identified by the index of the
door (or window) it was created for. -/
inductive Rel where
  | voids (host opening : ℕ)
  | fills (opening filler : ℕ)
deriving DecidableEq

/-- Embedding of one iteration of the door loop of `_build_native_ifc`: door
number `k` resolves a host wall from its anchor point; if a host exists, one
fresh `IfcOpeningElement` (identified by `k`), one Voids and one Fills
relationship are created; with no host the door is skipped (`continue`). -/
def doorRelsFor (walls : List Seg) (doors : List (ℚ × ℚ)) (k : ℕ) : List Rel :=
  match findHostWall walls (doors.getD k (0, 0)) with
  | none => []
  | some h => [Rel.voids h k, Rel.fills k k]

/-- Embedding of the full door loop (`for idx, (dr, (px, py)) in
enumerate(doors_pos)`): the concatenation of the relationships created for
every door. -/
def buildDoorRels (walls : List Seg) (doors : List (ℚ × ℚ)) : List Rel :=
  (List.range doors.length).flatMap (doorRelsFor walls doors)

/-- Selects the Voids relationships whose opening is the one of door `k`. -/
def voidsOf (k : ℕ) : Rel → Bool
  | Rel.voids _ o => o == k
  | _ => false

/-- Selects the Fills relationships whose opening is the one of door `k`. -/
def fillsOf (k : ℕ) : Rel → Bool
  | Rel.fills o _ => o == k
  | _ => false

/-- The slice of an element dictionary used by the opening-sizing code of
`_build_native_ifc`: its `type` string and the `width` / `height` /
`thickness` entries of its `properties` dictionary. -/
structure IElem where
  typ : String
  width : Option ℚ := none
  height : Option ℚ := none
  thickness : Option ℚ := none

/-- Embedding of `next((e for e in elements if e.get('type','').lower()==t), {})`
as used for door and window opening sizing: the FIRST element of the given
type in the whole element list, regardless of which opening is being built. -/
def firstOfType (elements : List IElem) (t : String) : Option IElem :=
  elements.find? (fun e => strLower e.typ == t)

/-- Embedding of the opening-sizing block of the door loop in
`_build_native_ifc` (src/backend/ifc_generator.py, door branch):
`width`/`height` come from the first `door` element of `elements`
(defaults 0.9 m / 2.1 m), and the opening thickness from
`elements[0].get('properties',{}).get('thickness')` (default 0.2 m) —
the "crude lookup" of the source. -/
def doorOpeningSize (elements : List IElem) (us : ℚ) : ℚ × ℚ × ℚ :=
  (normalizeLength ((firstOfType elements ("door")).bind IElem.width) (9/10) (1/100) us,
   normalizeLength ((firstOfType elements ("door")).bind IElem.height) (21/10) (1/100) us,
   normalizeLength ((elements.head?).bind IElem.thickness) (2/10) (1/100) us)

/-- Embedding of the door loop restricted to opening creation: for every door
index with a resolved host wall, one opening record `(door index, width,
height, thickness)` is produced, sized by `doorOpeningSize`. -/
def buildDoorOpenings (walls : List Seg) (doors : List (ℚ × ℚ))
    (elements : List IElem) (us : ℚ) : List (ℕ × ℚ × ℚ × ℚ) :=
  (List.range doors.length).filterMap (fun k =>
    match findHostWall walls (doors.getD k (0, 0)) with
    | none => none
    | some _ => some (k, doorOpeningSize elements us))

/-- Embedding of the opening-sizing block of the window loop in
`_build_native_ifc` (src/backend/ifc_generator.py, window branch):
`width`/`height` come from the first `window` element of `elements`
(defaults 1.2 m / 1.2 m), but the opening thickness is always
`self._normalize_length(None, 0.2)` — the window loop never consults any
element's thickness. -/
def windowOpeningSize (elements : List IElem) (us : ℚ) : ℚ × ℚ × ℚ :=
  (normalizeLength ((firstOfType elements ("window")).bind IElem.width) (12/10) (1/100) us,
   normalizeLength ((firstOfType elements ("window")).bind IElem.height) (12/10) (1/100) us,
   normalizeLength none (2/10) (1/100) us)

/-- Embedding of the window loop restricted to opening creation: for every
window index with a resolved host wall, one opening record `(window index,
width, height, thickness)` is produced, sized by `windowOpeningSize`. -/
def buildWindowOpenings (walls : List Seg) (windows : List (ℚ × ℚ))
    (elements : List IElem) (us : ℚ) : List (ℕ × ℚ × ℚ × ℚ) :=
  (List.range windows.length).filterMap (fun k =>
    match findHostWall walls (windows.getD k (0, 0)) with
    | none => none
    | some _ => some (k, windowOpeningSize elements us))

/-- The door elements of the list, in order. -/
def doorElems (elements : List IElem) : List IElem :=
  elements.filter (fun e => strLower e.typ == "door")

/-- Stated from the words of claim C4 (refinement comparison only, not from the
source): the opening of the k-th door is sized from THAT door element's own
width property, falling back to the 0.9 m default when absent. -/
def claimDoorOpeningWidth (elements : List IElem) (k : ℕ) (us : ℚ) : ℚ :=
  normalizeLength (((doorElems elements).get? k).bind IElem.width) (9/10) (1/100) us

/-- Wall segment for the claim C4 counterexample: one 4000-unit wall. -/
def c4walls : List Seg := [⟨(0, 0), (4000, 0)⟩]

/-- Door anchors for the claim C4 counterexample. -/
def c4doors : List (ℚ × ℚ) := [(1000, 10), (2500, 5)]

/-- Elements for the claim C4 counterexample: a wall followed by two doors of
different widths (800 and 1500 drawing units). -/
def c4elements : List IElem :=
  [{ typ := "wall", thickness := some 200 },
   { typ := "door", width := some 800, height := some 2100 },
   { typ := "door", width := some 1500, height := some 2100 }]

/-- Window anchor for the claim C4 witness. -/
def c4windows : List (ℚ × ℚ) := [(1500, 8)]

/-- Solid representation items of the generated IFC: a wall's or opening's
extruded rectangle (`IfcExtrudedAreaSolid`, identified by a number) or an
`IfcBooleanClippingResult` with operator DIFFERENCE. -/
inductive Solid where
  | extrusion (id : ℕ)
  | diff (a b : Solid)
deriving DecidableEq

/-- A product of the generated model, by identifier, with its current body
representation (if any). -/
structure Product where
  pid : ℕ
  rep : Option Solid
deriving DecidableEq

/-- Lookup in `self._wall_solids` (the cached base solid of each wall, keyed
by product): the extrusion id cached for the wall, if the product is a wall
with a cached solid. -/
def lookupSolid (wallSolids : List (ℕ × ℕ)) (pid : ℕ) : Option ℕ :=
  (wallSolids.find? (fun q => q.1 == pid)).map Prod.snd

/-- Lookup of `self._openings_by_wall.get(wall) or []`. -/
def lookupOpenings (openings : List (ℕ × List Solid)) (pid : ℕ) : List Solid :=
  ((openings.find? (fun q => q.1 == pid)).map Prod.snd).getD []

/-- Embedding of one iteration of the boolean-clipping loop of
`_build_native_ifc` (src/backend/ifc_generator.py): starting from the wall's
cached base solid, fold `IfcBooleanClippingResult(DIFFERENCE, ·, ·)` over the
wall's opening solids; the wall's representation is replaced only when
`base is not wall_solid`, i.e. when at least one fresh clipping node was
created — a freshly created `diff` node is never the original `extrusion`
node, which the structural inequality mirrors.  Products without a cached
wall solid are not visited by the loop at all. -/
def clipProduct (wallSolids : List (ℕ × ℕ)) (openings : List (ℕ × List Solid))
    (p : Product) : Product :=
  match lookupSolid wallSolids p.pid with
  | none => p
  | some eid =>
    let ops := lookupOpenings openings p.pid
    let base := ops.foldl Solid.diff (Solid.extrusion eid)
    if base = Solid.extrusion eid then p else { p with rep := some base }

/-- The whole clipping pass over the product list. -/
def clipPass (products : List Product) (wallSolids : List (ℕ × ℕ))
    (openings : List (ℕ × List Solid)) : List Product :=
  products.map (clipProduct wallSolids openings)

end IfcGen

namespace DxfParse

/-- Is the character one of `A`-`Z`, `0`-`9`?  After uppercasing, these are
exactly the characters kept by the tokeniser's split pattern
`[^A-Z0-9]+` in `DXFParser._tokenize_layer_name`. -/
def isUpperAlnum (c : Char) : Bool :=
  (decide ('A' ≤ c) && decide (c ≤ 'Z')) || (decide ('0' ≤ c) && decide (c ≤ '9'))

/-- Split a character list on runs of non-alphanumeric characters, dropping
empty pieces (Python keeps them but the source filters with `if token`);
`acc` holds the reversed current token. -/
def splitTokens : List Char → List Char → List (List Char)
  | [], acc => if acc.isEmpty then [] else [acc.reverse]
  | c :: rest, acc =>
    if isUpperAlnum c then splitTokens rest (c :: acc)
    else if acc.isEmpty then splitTokens rest []
    else acc.reverse :: splitTokens rest []

/-- Embedding of the `raw_tokens` of `DXFParser._tokenize_layer_name`
(src/backend/dxf_parser.py): uppercase the name, split on runs of
non-alphanumeric characters, keep non-empty pieces. -/
def rawTokens (name : String) : List String :=
  (splitTokens (strUpper name).data []).map (fun cs => String.mk cs)

/-- `LAYER_TOKEN_EXPANSIONS` (src/backend/dxf_parser.py). -/
def layerTokenExpansions : List (String × List String) :=
  [("RM", ["ROOM"]), ("RMS", ["ROOM"]), ("FLR", ["FLOOR"]), ("FL", ["FLOOR"]),
   ("FLRS", ["FLOOR"]), ("CLG", ["CEILING"]), ("CL", ["CEILING"]), ("CLNG", ["CEILING"]),
   ("SLB", ["SLAB"]), ("SLBS", ["SLAB"]), ("COL", ["COLUMN"]), ("COLS", ["COLUMN"]),
   ("STR", ["STRUCTURE", "STRUCTURAL"]), ("STRL", ["STRUCTURAL"]),
   ("MECH", ["MECHANICAL"]), ("ELEC", ["ELECTRICAL"]), ("ELE", ["ELECTRICAL"]),
   ("PWR", ["POWER"]), ("PLMB", ["PLUMBING"]), ("PLUM", ["PLUMBING"]),
   ("PLUMB", ["PLUMBING"]), ("SAN", ["SANITARY"]), ("HVAC", ["HVAC", "MECHANICAL"]),
   ("DUCT", ["DUCT"]), ("FP", ["FIRE"]), ("GRID", ["GRID"]), ("AX", ["AXIS"]),
   ("AXES", ["AXIS"]), ("FURN", ["FURNITURE"]), ("CASE", ["CASEWORK"]),
   ("CAB", ["CABINET"]), ("KIT", ["KITCHEN"]), ("BATH", ["BATHROOM"]),
   ("APPL", ["APPLIANCE"]), ("EQ", ["EQUIPMENT"]), ("EQUIP", ["EQUIPMENT"]),
   ("DATA", ["DATA"]), ("TEL", ["TELECOM"]), ("TELCO", ["TELECOM"])]

/-- The expansions registered for one token (empty when the token has none). -/
def expansionsFor (t : String) : List String :=
  (((layerTokenExpansions.find? (fun q => q.1 == t)).map Prod.snd).getD [])

/-- The expanded token set of `_tokenize_layer_name`: the original tokens are
always retained and every known abbreviation adds its expansions.  Lists are
used with membership semantics for the Python sets. -/
def expandedTokens (name : String) : List String :=
  rawTokens name ++ (rawTokens name).flatMap expansionsFor

/-- One entry of `LAYER_CATEGORY_DEFINITIONS`: a keyword set, substring
patterns, a discipline, a system name and a base priority. -/
structure LayerRule where
  category : String
  keywords : List String
  patterns : List String
  discipline : Option String
  system : Option String
  priority : ℕ
deriving DecidableEq, Inhabited

/-- `LAYER_CATEGORY_DEFINITIONS` (src/backend/dxf_parser.py), in source
order.  Priorities are the integers of the source; scores stay integral. -/
def layerCategoryDefinitions : List LayerRule :=
  [{ category := "wall",
     keywords := ["WALL", "WALLS", "PARTITION", "PART", "PWALL", "ENCL", "MUR"],
     patterns := ["A-WALL", "C-WALL", "WALL-"],
     discipline := some "architectural", system := some "enclosure", priority := 95 },
   { category := "door",
     keywords := ["DOOR", "DOORS", "DOORFRAME", "JAMB"],
     patterns := ["A-DOOR", "DOOR-"],
     discipline := some "architectural", system := some "openings", priority := 85 },
   { category := "window",
     keywords := ["WINDOW", "WINDOWS", "WIN", "GLAZ", "GLASS"],
     patterns := ["A-WINDOW", "WINDOW-"],
     discipline := some "architectural", system := some "openings", priority := 82 },
   { category := "floor",
     keywords := ["FLOOR", "FLOORS", "SLAB", "FINISH", "TILE", "TILING"],
     patterns := ["A-FLOOR", "SLAB-"],
     discipline := some "architectural", system := some "floor_finish", priority := 78 },
   { category := "ceiling",
     keywords := ["CEILING", "CEILINGS", "CLG", "SOFFIT"],
     patterns := ["A-CEILING", "CEIL-"],
     discipline := some "architectural", system := some "ceiling_finish", priority := 76 },
   { category := "space",
     keywords := ["ROOM", "SPACE", "ZONE", "AREA"],
     patterns := ["A-AREA", "A-ROOM"],
     discipline := some "architectural", system := some "space", priority := 74 },
   { category := "dimension",
     keywords := ["DIM", "DIMENSION"],
     patterns := ["A-DIM", "DIM-"],
     discipline := some "annotation", system := some "dimensioning", priority := 60 },
   { category := "text",
     keywords := ["TEXT", "NOTE", "ANNOTATION", "ANNO", "TAG", "LABEL"],
     patterns := ["A-ANNO", "A-TEXT"],
     discipline := some "annotation", system := some "documentation", priority := 58 },
   { category := "structure_column",
     keywords := ["COLUMN", "COLUMNS", "COL", "PIER", "PILE"],
     patterns := ["S-COL", "STR-COL"],
     discipline := some "structural", system := some "column", priority := 88 },
   { category := "structure_beam",
     keywords := ["BEAM", "BEAMS", "GIRDER", "BRACE", "FRAMING"],
     patterns := ["S-BEAM", "STR-BEAM"],
     discipline := some "structural", system := some "beam", priority := 86 },
   { category := "structure_foundation",
     keywords := ["FOUNDATION", "FOUND", "FOOTING", "PILECAP", "MAT"],
     patterns := ["S-FOOT", "S-FOUND"],
     discipline := some "structural", system := some "foundation", priority := 80 },
   { category := "stair",
     keywords := ["STAIR", "STAIRS", "STEP", "STEPS"],
     patterns := ["A-STAIR"],
     discipline := some "architectural", system := some "vertical_transport", priority := 72 },
   { category := "furniture",
     keywords := ["FURNITURE", "FURN", "CASEWORK", "CABINET", "MILLWORK", "FFE",
                  "SOFA", "BED", "WARDROBE", "DESK", "TABLE"],
     patterns := ["I-FURN", "A-FURN"],
     discipline := some "interior", system := some "furniture", priority := 70 },
   { category := "equipment",
     keywords := ["EQUIPMENT", "EQUIP", "APPLIANCE", "APPL", "CASEWORK"],
     patterns := ["ME-EQ", "EQP-"],
     discipline := some "equipment", system := some "equipment", priority := 68 },
   { category := "mep_plumbing",
     keywords := ["PLUMBING", "PLUMB", "SANITARY", "SAN", "WASTE", "VENT", "PIPE",
                  "PIPING", "WATER", "WTR", "SEWER", "DRAIN"],
     patterns := ["P-PLUM", "MEP-PLUM", "PLUMB-"],
     discipline := some "plumbing", system := some "plumbing", priority := 84 },
   { category := "mep_hvac",
     keywords := ["HVAC", "MECHANICAL", "MECH", "DUCT", "VENT", "AIR", "AC", "VAV",
                  "FCU", "AHU", "SUPPLY", "RETURN"],
     patterns := ["M-HVAC", "M-DUCT", "MEP-HVAC"],
     discipline := some "mechanical", system := some "hvac", priority := 84 },
   { category := "mep_electrical",
     keywords := ["ELECTRICAL", "ELECT", "ELEC", "POWER", "PWR", "LIGHT", "LIGHTING",
                  "LTS", "SWITCH", "PANEL", "CONDUIT", "CABLE", "DATA", "TELECOM",
                  "SECURITY"],
     patterns := ["E-POWR", "E-LITE", "MEP-ELEC"],
     discipline := some "electrical", system := some "electrical", priority := 84 },
   { category := "mep_fire_protection",
     keywords := ["FIRE", "SPRINKLER", "SPRINK", "FP", "ALARM"],
     patterns := ["FP-", "FIRE-"],
     discipline := some "fire_protection", system := some "fire_protection", priority := 75 },
   { category := "landscape",
     keywords := ["SITE", "LAND", "PLANT", "TREE", "LANDSCAPE", "HARDSCAPE",
                  "GRADE", "TOPO"],
     patterns := ["C-LAND", "SITE-"],
     discipline := some "site", system := some "landscape", priority := 60 },
   { category := "grid",
     keywords := ["GRID", "AXIS", "AXES"],
     patterns := ["GRID-", "AXIS-"],
     discipline := some "structural", system := some "grid", priority := 62 },
   { category := "roof",
     keywords := ["ROOF", "ROOFING"],
     patterns := ["A-ROOF"],
     discipline := some "architectural", system := some "roof", priority := 70 }]

/-- `matched_keywords = token_set & definition['keywords']` of
`DXFParser._analyze_layer`: the rule keywords present in the expanded token
set (the keyword lists are duplicate-free, so the length is the size of the
Python set intersection). -/
def matchedKeywords (name : String) (rule : LayerRule) : List String :=
  rule.keywords.filter (fun k => (expandedTokens name).contains k)

/-- `pattern_hits` of `_analyze_layer`: the rule patterns occurring as a
substring of the uppercased layer name. -/
def patternHits (name : String) (rule : LayerRule) : List String :=
  rule.patterns.filter (fun pat => hasSub pat (strUpper name))

/-- A rule matches when it has at least one matched keyword or pattern hit
(`if not matched_keywords and not pattern_hits: continue`). -/
def ruleMatches (name : String) (rule : LayerRule) : Bool :=
  !(matchedKeywords name rule).isEmpty || !(patternHits name rule).isEmpty

/-- The score of `_analyze_layer`: `score = 0.0`, then
`if matched_keywords: score += priority + len(matched_keywords) * 6` and
`if pattern_hits: score += 10 * len(pattern_hits)`.  The float is always
integer-valued, so it is modelled as a natural number. -/
def ruleScore (name : String) (rule : LayerRule) : ℕ :=
  (if (matchedKeywords name rule).isEmpty then 0
   else rule.priority + 6 * (matchedKeywords name rule).length) +
  (if (patternHits name rule).isEmpty then 0
   else 10 * (patternHits name rule).length)

/-- The `matches` list of `_analyze_layer`: every matching rule paired with
its score, in table order. -/
def matchesFor (name : String) : List (LayerRule × ℕ) :=
  layerCategoryDefinitions.filterMap (fun r =>
    if ruleMatches name r then some (r, ruleScore name r) else none)

/-- Strict lexicographic comparison of `(score, priority)` keys. -/
def betterKey (x y : ℕ × ℕ) : Bool :=
  x.1 > y.1 || (x.1 == y.1 && x.2 > y.2)

/-- `matches.sort(key=(score, priority), reverse=True)` followed by taking the
first entry: Python's stable descending sort puts first the earliest entry
attaining the lexicographically largest key, which this fold computes by
replacing the current best only on a strictly larger key. -/
def bestMatch (l : List (LayerRule × ℕ)) : Option (LayerRule × ℕ) :=
  l.foldl (fun acc m =>
    match acc with
    | none => some m
    | some b => if betterKey (m.2, m.1.priority) (b.2, b.1.priority) then some m else some b)
    none

/-- Embedding of `DXFParser._legacy_classification`: the fallback substring
classifier over the uppercased name. -/
def legacyClassification (nameUpper : String) : String :=
  if ["WALL", "MUR", "WALLS", "A-WALL"].any (fun pat => hasSub pat nameUpper) then "wall"
  else if ["DOOR", "DOORS", "A-DOOR"].any (fun pat => hasSub pat nameUpper) then "door"
  else if ["WINDOW", "WINDOWS", "WIN", "A-WINDOW"].any (fun pat => hasSub pat nameUpper) then "window"
  else if ["FLOOR", "SLAB", "FLOORS", "A-FLOOR"].any (fun pat => hasSub pat nameUpper) then "floor"
  else if ["CEILING", "CEIL", "A-CEILING"].any (fun pat => hasSub pat nameUpper) then "ceiling"
  else if ["ROOM", "SPACE", "AREA", "A-AREA"].any (fun pat => hasSub pat nameUpper) then "space"
  else if ["TEXT", "TEXTS", "LABEL", "NOTE"].any (fun pat => hasSub pat nameUpper) then "text"
  else if ["DIM", "DIMS", "DIMENSION"].any (fun pat => hasSub pat nameUpper) then "dimension"
  else if ["BEAM", "COLUMN", "STRUCTURE"].any (fun pat => hasSub pat nameUpper) then "structure"
  else "other"

/-- Python `round(x, 3)`.  Every confidence reaching it here is an integer
multiple of 1/1000, so no rounding-tie behaviour is ever exercised and
Mathlib's `round` is an exact model. -/
def round3 (q : ℚ) : ℚ :=
  ((round (q * 1000) : ℤ) : ℚ) / 1000

/-- The slice of `_analyze_layer`'s result dictionary needed by the claims:
classification, confidence and source (the discipline/system/tags/tokens
entries are independent of the properties verified here). -/
structure LayerResult where
  classification : String
  confidence : ℚ
  source : String

/-- Embedding of `DXFParser._analyze_layer` (src/backend/dxf_parser.py): on a
best rule match, confidence is `max(0.25, min(1.0, score / 100.0))`; on
fallback, 0.2 when the legacy classifier finds a category and 0.0 with
category `other`; the result is rounded to three decimals. -/
def analyzeLayer (name : String) : LayerResult :=
  match bestMatch (matchesFor name) with
  | some (r, s) =>
    { classification := r.category,
      confidence := round3 (max (1/4) (min 1 ((s : ℚ) / 100))),
      source := "rule" }
  | none =>
    let c := legacyClassification (strUpper name)
    { classification := c,
      confidence := round3 (if c ≠ "other" then 1/5 else 0),
      source := "fallback" }

end DxfParse

namespace GeomExt

/-- The name map of `GeometryExtractor._infer_units_and_thresholds`
(src/backend/geometry_extractor.py), keyed by the lowercased header unit
name (values: 0.0254, 0.3048, 0.001, 0.01, 1.0, 1000.0). -/
def nameMap : List (String × ℚ) :=
  [("inches", 254/10000), ("feet", 3048/10000), ("millimeters", 1/1000),
   ("centimeters", 1/100), ("meters", 1), ("kilometers", 1000)]

/-- The code map of `_infer_units_and_thresholds`, keyed by the DXF
`INSUNITS` header code. -/
def codeMap : List (ℤ × ℚ) :=
  [(1, 254/10000), (2, 3048/10000), (4, 1/1000), (5, 1/100), (6, 1), (7, 1000)]

/-- `units_name in name_map` lookup. -/
def lookupName (n : String) : Option ℚ :=
  ((nameMap.find? (fun q => q.1 == n)).map Prod.snd)

/-- `units_code in code_map` lookup. -/
def lookupCode (c : ℤ) : Option ℚ :=
  ((codeMap.find? (fun q => q.1 == c)).map Prod.snd)

/-- The bounding-box heuristic of `_infer_units_and_thresholds`: note every
interval is OPEN at both endpoints (`1000 < max_dim < 100000` etc.). -/
def heuristicScale (maxDim : ℚ) : ℚ :=
  if 1000 < maxDim ∧ maxDim < 100000 then 1/1000
  else if 50 < maxDim ∧ maxDim < 1000 then 1/100
  else if 1/2 < maxDim ∧ maxDim < 200 then 1
  else 1/1000

/-- Embedding of `GeometryExtractor._infer_units_and_thresholds`: prefer the
lowercased header unit name, then the header unit code, and only then the
bounding-box heuristic on `max(width, height)` of the drawing bounds. -/
def inferScale (unitsName : String) (unitsCode : ℤ) (bmin bmax : ℚ × ℚ) : ℚ :=
  match lookupName (strLower unitsName) with
  | some s => s
  | none =>
    match lookupCode unitsCode with
    | some s => s
    | none =>
      heuristicScale (max |bmax.1 - bmin.1| |bmax.2 - bmin.2|)

/-- Stated from the words of claim C5 (refinement comparison only, not from
the source): the same heuristic with intervals CLOSED at the left endpoint,
tried in the claim's order. -/
def claimHeuristicScale (maxDim : ℚ) : ℚ :=
  if 1000 ≤ maxDim ∧ maxDim < 100000 then 1/1000
  else if 50 ≤ maxDim ∧ maxDim < 1000 then 1/100
  else if 1/2 ≤ maxDim ∧ maxDim < 200 then 1
  else 1/1000

/-- The slice of a normalised geometry dictionary used by the classification
predicates of `GeometryExtractor`: scalar keys are optional (`.get` with
default 0 at the use sites), `closed` defaults to false. -/
structure Geom where
  length : Option ℚ := none
  area : Option ℚ := none
  radius : Option ℚ := none
  closed : Bool := false
  text : Option String := none
  name : Option String := none
  blockName : Option String := none

/-- The slice of a layer-information dictionary (as produced by
`DXFParser._analyze_layer`) read by `GeometryExtractor._build_layer_context`;
an entity on an unknown layer gets the empty dictionary, i.e. all defaults. -/
structure LayerInfo where
  classification : String := "other"
  classificationConfidence : ℚ := 0
  discipline : Option String := none
  system : Option String := none
  tags : List String := []
  tokens : List String := []

/-- The context dictionary built by `_build_layer_context`. -/
structure LayerContext where
  classification : String
  discipline : Option String
  system : Option String
  tags : List String
  tokens : List String
  layerConfidence : ℚ
  hasSemanticHit : Bool

/-- Embedding of `GeometryExtractor._build_layer_context`
(src/backend/geometry_extractor.py): tags and tokens are uppercased with
empty entries dropped, the (always truthy) classification is ADDED TO THE
TAGS, the discipline is lowercased, and `has_semantic_hit` is the truthiness
of `tags or tokens or system or discipline` — computed after the
classification was added to the tags, so it is true for every layer. -/
def buildLayerContext (li : LayerInfo) : LayerContext :=
  let classification := if li.classification = "" then "other" else li.classification
  let tags := ((li.tags.filter (fun t => t ≠ "")).map strUpper) ++ [strUpper classification]
  let tokens := (li.tokens.filter (fun t => t ≠ "")).map strUpper
  let discipline := match li.discipline with
    | some s => if s = "" then none else some (strLower s)
    | none => none
  { classification := classification,
    discipline := discipline,
    system := li.system,
    tags := tags,
    tokens := tokens,
    layerConfidence := li.classificationConfidence,
    hasSemanticHit := !tags.isEmpty || !tokens.isEmpty || li.system.isSome || discipline.isSome }

/-- Embedding of `GeometryExtractor._confidence_from_context`: add the layer
bonus `min(0.35, layer_confidence * 0.4)` when the layer confidence is
non-zero, add 0.05 on any semantic hit, and clamp into [0.3, 1.0]. -/
def confidenceFromContext (ctx : LayerContext) (base : ℚ) : ℚ :=
  let c1 := if ctx.layerConfidence ≠ 0 then base + min (35/100) (ctx.layerConfidence * (4/10))
            else base
  let c2 := if ctx.hasSemanticHit then c1 + 5/100 else c1
  max (3/10) (min 1 c2)

/-- `self._thresholds_m['wall_min_len_m']`. -/
def wallMinLenM : ℚ := 1/2

/-- `self._thresholds_m['floor_min_area_m2']`. -/
def floorMinAreaM2 : ℚ := 2

/-- `self._thresholds_m['space_min_area_m2']`. -/
def spaceMinAreaM2 : ℚ := 2

/-- `self._thresholds_m['window_min_width_m']`. -/
def windowMinWidthM : ℚ := 4/10

/-- `self._thresholds_m['window_max_width_m']`. -/
def windowMaxWidthM : ℚ := 4

/-- `(geometry.get('name') or geometry.get('block_name') or '').upper()`:
Python `or` falls through empty strings. -/
def pyOrStr (a b : Option String) : String :=
  if (a.getD "") ≠ "" then a.getD "" else b.getD ""

/-- The uppercased block name used by the INSERT checks. -/
def blockNameOf (geom : Geom) : String :=
  strUpper (pyOrStr geom.name geom.blockName)

/-- Embedding of `GeometryExtractor._is_wall`: layer signal (classification,
WALL tag/token, architectural discipline with WALL in the name), LINE longer
than the 0.5 m threshold, or a closed polyline of raw area above 1000. -/
def isWall (entityType layerName layerClassification : String)
    (geom : Geom) (ctx : LayerContext) (scaleToM : ℚ) : Bool :=
  if layerClassification == "wall" || layerClassification == "structure_wall" then true
  else if ctx.tags.contains "WALL" || ctx.tokens.contains "WALL" then true
  else if ctx.discipline == some "architectural" && hasSub ("WALL") (strUpper layerName) then true
  else if entityType == "LINE" && decide (geom.length.getD 0 * scaleToM > wallMinLenM) then true
  else if (entityType == "LWPOLYLINE" || entityType == "POLYLINE") && geom.closed
          && decide (geom.area.getD 0 > 1000) then true
  else false

/-- Embedding of `GeometryExtractor._is_door`. -/
def isDoor (entityType layerName layerClassification : String)
    (geom : Geom) (ctx : LayerContext) (scaleToM : ℚ) : Bool :=
  if layerClassification == "door" || ctx.tags.contains "DOOR" || ctx.tokens.contains "DOOR" then
    true
  else if entityType == "INSERT"
      && (hasSub ("DOOR") (blockNameOf geom) || hasSub ("DR") (blockNameOf geom)) then true
  else if entityType == "ARC" && decide ((4:ℚ)/10 ≤ geom.radius.getD 0 * scaleToM)
      && decide (geom.radius.getD 0 * scaleToM ≤ 13/10) then true
  else false

/-- Embedding of `GeometryExtractor._is_window`. -/
def isWindow (entityType layerName layerClassification : String)
    (geom : Geom) (ctx : LayerContext) (scaleToM : ℚ) : Bool :=
  if layerClassification == "window" || ctx.tags.contains "WINDOW"
      || ctx.tokens.contains "WINDOW" then true
  else if entityType == "INSERT"
      && (hasSub ("WINDOW") (blockNameOf geom) || hasSub ("WIN") (blockNameOf geom)) then true
  else if entityType == "LINE" && decide (windowMinWidthM ≤ geom.length.getD 0 * scaleToM)
      && decide (geom.length.getD 0 * scaleToM ≤ windowMaxWidthM) then true
  else false

/-- Embedding of `GeometryExtractor._is_floor`. -/
def isFloor (entityType layerName layerClassification : String)
    (geom : Geom) (ctx : LayerContext) (scaleToM : ℚ) : Bool :=
  if layerClassification == "floor" || ctx.tags.contains "FLOOR" || ctx.tags.contains "SLAB" then
    true
  else if ctx.tokens.contains "FLOOR" || ctx.tokens.contains "SLAB" then true
  else if ["LWPOLYLINE", "POLYLINE", "HATCH", "SPLINE"].contains entityType && geom.closed
      && decide (geom.area.getD 0 * scaleToM ^ 2 > floorMinAreaM2) then true
  else false

/-- Embedding of `GeometryExtractor._is_ceiling`. -/
def isCeiling (entityType layerName layerClassification : String)
    (geom : Geom) (ctx : LayerContext) : Bool :=
  layerClassification == "ceiling" || ctx.tags.contains "CEILING" || ctx.tokens.contains "CEIL"

/-- Embedding of `GeometryExtractor._is_space`. -/
def isSpace (entityType layerName layerClassification : String)
    (geom : Geom) (ctx : LayerContext) (scaleToM : ℚ) : Bool :=
  if layerClassification == "space" || ctx.tags.contains "ROOM" || ctx.tags.contains "SPACE" then
    true
  else if (entityType == "TEXT" || entityType == "MTEXT")
      && ["ROOM", "SPACE", "AREA", "OFFICE", "BEDROOM", "KITCHEN"].any
           (fun pat => hasSub pat (strUpper (geom.text.getD ""))) then true
  else if ["LWPOLYLINE", "POLYLINE", "HATCH", "SPLINE"].contains entityType && geom.closed
      && decide (geom.area.getD 0 * scaleToM ^ 2 > spaceMinAreaM2) then true
  else false

/-- Embedding of `GeometryExtractor._is_column`. -/
def isColumn (entityType layerName layerClassification : String)
    (geom : Geom) (ctx : LayerContext) (scaleToM : ℚ) : Bool :=
  if layerClassification == "structure_column" || layerClassification == "column"
      || ctx.tags.contains "COLUMN" then true
  else if ctx.discipline == some "structural"
      && ["COLUMN", "COL", "PILAR", "PIER"].any (fun pat => hasSub pat (strUpper layerName)) then
    true
  else if ctx.tokens.contains "COLUMN" || ctx.tokens.contains "COL" then true
  else if entityType == "INSERT"
      && ["COLUMN", "COL", "PILAR"].any (fun pat => hasSub pat (blockNameOf geom)) then true
  else if entityType == "CIRCLE" && decide ((8:ℚ)/100 ≤ geom.radius.getD 0 * scaleToM)
      && decide (geom.radius.getD 0 * scaleToM ≤ 1/2) then true
  else false

/-- Embedding of `GeometryExtractor._is_beam`. -/
def isBeam (entityType layerName layerClassification : String)
    (geom : Geom) (ctx : LayerContext) : Bool :=
  if layerClassification == "structure_beam" || layerClassification == "beam"
      || ctx.tags.contains "BEAM" || ctx.tags.contains "GIRDER" then true
  else if ctx.discipline == some "structural"
      && (hasSub ("BEAM") (strUpper layerName) || hasSub ("GIRDER") (strUpper layerName)) then true
  else if ctx.tokens.contains "BEAM" || ctx.tokens.contains "GIRDER" then true
  else if entityType == "INSERT"
      && (hasSub ("BEAM") (blockNameOf geom) || hasSub ("GIRDER") (blockNameOf geom)) then true
  else false

/-- Embedding of `GeometryExtractor._is_stair` (its INSERT branch reads only
`geometry.get('name', '')`). -/
def isStair (entityType layerName : String) (geom : Geom) : Bool :=
  if ["STAIR", "STAIRS", "STEPS"].any (fun pat => hasSub pat (strUpper layerName)) then true
  else if entityType == "INSERT"
      && ["STAIR", "STAIRS", "STEPS"].any
           (fun pat => hasSub pat (strUpper (geom.name.getD ""))) then true
  else false

/-- Embedding of `GeometryExtractor._is_mep_component`. -/
def isMepComponent (entityType layerName : String) (geom : Geom) (ctx : LayerContext) :
    Option String :=
  let classification := if ctx.classification = "" then "other" else ctx.classification
  if ["mep_plumbing", "mep_hvac", "mep_electrical", "mep_fire_protection"].contains
       classification then some classification
  else if ctx.discipline == some "plumbing"
      || ["PLUMBING", "SANITARY", "DRAIN", "WASTE"].any (ctx.tokens.contains ·) then
    some "mep_plumbing"
  else if ctx.discipline == some "mechanical"
      || ["HVAC", "DUCT", "VENT", "AIR"].any (ctx.tokens.contains ·) then some "mep_hvac"
  else if ctx.discipline == some "electrical"
      || ["ELECT", "POWER", "LIGHT", "LIGHTING", "DATA"].any (ctx.tokens.contains ·) then
    some "mep_electrical"
  else if ctx.discipline == some "fire_protection"
      || ["FIRE", "SPRINKLER", "ALARM"].any (ctx.tokens.contains ·) then
    some "mep_fire_protection"
  else if ctx.tags.contains "MOTOR" || ctx.tags.contains "EQUIPMENT" then some "mep_equipment"
  else none

/-- Embedding of `GeometryExtractor._is_furniture`. -/
def isFurniture (entityType layerName : String) (geom : Geom) (ctx : LayerContext) : Bool :=
  let classification := if ctx.classification = "" then "other" else ctx.classification
  if classification == "furniture" || classification == "interior_furniture" then true
  else if ctx.discipline == some "interior"
      && ["FURN", "SOFA", "BED", "TABLE", "CHAIR"].any (ctx.tokens.contains ·) then true
  else if ["FURNITURE", "MILLWORK", "CASEWORK"].any (ctx.tags.contains ·) then true
  else if entityType == "INSERT"
      && ["SOFA", "BED", "CHAIR", "TABLE", "WARDROBE", "CABINET"].any
           (fun pat => hasSub pat (blockNameOf geom)) then true
  else false

/-- The fixture keyword set of `GeometryExtractor._is_fixture`. -/
def fixtureKeywords : List String :=
  ["SINK", "WC", "TOILET", "BATH", "SHOWER", "OVEN", "COOK", "HOB", "APPLIANCE",
   "FRIDGE", "LIGHT"]

/-- Embedding of `GeometryExtractor._is_fixture`. -/
def isFixture (entityType layerName : String) (geom : Geom) (ctx : LayerContext) : Bool :=
  let classification := if ctx.classification = "" then "other" else ctx.classification
  if classification == "equipment" || classification == "fixture"
      || classification == "appliance" then true
  else if fixtureKeywords.any (ctx.tokens.contains ·) then true
  else if entityType == "INSERT"
      && fixtureKeywords.any (fun pat => hasSub pat (blockNameOf geom)) then true
  else if fixtureKeywords.any (ctx.tags.contains ·) then true
  else false

/-- Embedding of `GeometryExtractor._apply_classification_rules`
(src/backend/geometry_extractor.py): the fixed predicate cascade; the first
matching predicate fixes the element type and its hand-tuned base confidence,
adjusted by `_confidence_from_context`. -/
def applyClassificationRules (entityType layerName layerClassification : String)
    (geom : Geom) (ctx : LayerContext) (scaleToM : ℚ) : Option (String × ℚ) :=
  if isWall entityType layerName layerClassification geom ctx scaleToM then
    some ("wall", confidenceFromContext ctx (85/100))
  else if isDoor entityType layerName layerClassification geom ctx scaleToM then
    some ("door", confidenceFromContext ctx (8/10))
  else if isWindow entityType layerName layerClassification geom ctx scaleToM then
    some ("window", confidenceFromContext ctx (78/100))
  else if isFloor entityType layerName layerClassification geom ctx scaleToM then
    some ("floor", confidenceFromContext ctx (3/4))
  else if isCeiling entityType layerName layerClassification geom ctx then
    some ("ceiling", confidenceFromContext ctx (7/10))
  else if isSpace entityType layerName layerClassification geom ctx scaleToM then
    some ("space", confidenceFromContext ctx (68/100))
  else if isColumn entityType layerName layerClassification geom ctx scaleToM then
    some ("column", confidenceFromContext ctx (8/10))
  else if isBeam entityType layerName layerClassification geom ctx then
    some ("beam", confidenceFromContext ctx (78/100))
  else if isStair entityType layerName geom then
    some ("stair", confidenceFromContext ctx (65/100))
  else
    match isMepComponent entityType layerName geom ctx with
    | some t => some (t, confidenceFromContext ctx (7/10))
    | none =>
      if isFurniture entityType layerName geom ctx then
        some ("furniture", confidenceFromContext ctx (65/100))
      else if isFixture entityType layerName geom ctx then
        some ("fixture", confidenceFromContext ctx (62/100))
      else none

/-- The layer-information dictionary produced by `_analyze_layer("0")` for
the default layer `"0"`: no rule and no legacy pattern matches, so the
classification is `other` with confidence 0.0 from the fallback source,
discipline `general`, no system, no tags and the single token `"0"`.
(The DxfParse embedding evaluates `analyzeLayer "0"` to exactly this.) -/
def layerInfo0 : LayerInfo :=
  { classification := "other", classificationConfidence := 0,
    discipline := some "general", system := none, tags := [], tokens := ["0"] }

/-- A LINE geometry 3000 drawing units long (3.0 m at millimetre scale), as
produced by `_calculate_geometry_properties` for a LINE entity. -/
def geomLine3m : Geom := { length := some 3000 }

/-- The slice of an `ArchitecturalElement` used by space synthesis and the
relationship computation: element type, layer, geometry points, the
`properties.generated` flag, the classification confidence, and the
geometry's area. -/
structure GElem where
  elementType : String
  layer : String := ""
  points : List (ℚ × ℚ) := []
  generated : Bool := false
  confidence : ℚ := 0
  area : Option ℚ := none

/-- `any(elem.element_type in ('space', 'room', 'floor') ...)` of
`_ensure_spaces_from_walls`. -/
def hasSpaceElem (elems : List GElem) : Bool :=
  elems.any (fun e => e.elementType == "space" || e.elementType == "room"
    || e.elementType == "floor")

/-- `line.length > 0` for the LineString on these points: the total Euclidean
length is positive exactly when some pair of consecutive vertices differs
(no square roots needed). -/
def hasPositiveLength : List (ℚ × ℚ) → Bool
  | [] => false
  | [_] => false
  | p :: q :: rest => decide (p ≠ q) || hasPositiveLength (q :: rest)

/-- The wall segments collected by `_ensure_spaces_from_walls`: elements of
type `wall` whose geometry has at least two points and positive length
(`_line_from_geometry` returns `None` otherwise). -/
def wallLines (elems : List GElem) : List (List (ℚ × ℚ)) :=
  elems.filterMap (fun e =>
    if e.elementType == "wall" then
      if e.points.length ≥ 2 && hasPositiveLength e.points then some e.points else none
    else none)

/-- A face returned by the polygonisation collaborator: exterior coordinates,
area, and shapely's emptiness/validity flags. -/
structure GPoly where
  coords : List (ℚ × ℚ)
  area : ℚ
  isEmpty : Bool := false
  isValid : Bool := true

/-- Embedding of `GeometryExtractor._ensure_spaces_from_walls`
(src/backend/geometry_extractor.py), parameterised by the planar-arrangement
polygonisation collaborator (shapely `unary_union` + `polygonize`), which the
source only calls as an external library: if any space/room/floor element
exists, return nothing; with fewer than three wall lines, return nothing;
otherwise polygonise, drop empty/invalid faces and faces below
`space_min_area_m2 / scale²` (4.0 when the scale is zero), and create one
`space` element per surviving face with `properties.generated = true`,
confidence 0.45 and layer `__generated_space__`. -/
def ensureSpacesFromWalls (polygonizeFn : List (List (ℚ × ℚ)) → List GPoly)
    (elems : List GElem) (scaleToM : ℚ) : List GElem :=
  if hasSpaceElem elems then []
  else if (wallLines elems).length < 3 then []
  else
    let minAreaUnits := if scaleToM ≠ 0 then spaceMinAreaM2 / scaleToM ^ 2 else 4
    ((polygonizeFn (wallLines elems)).filter
      (fun p => !p.isEmpty && p.isValid && !(decide (p.area < minAreaUnits)))).map
      (fun p =>
        { elementType := "space", layer := "__generated_space__",
          points := p.coords, generated := true, confidence := 45/100,
          area := some p.area })

/-- Modelled from the spec: the planar-arrangement face extraction ("merge
them into a planar arrangement, and extract closed faces") performed by the
external shapely collaborator, specialised to segments forming one closed
axis-aligned rectangular wall loop — it extracts the single rectangular face
spanned by the segments' endpoints, with the rectangle's area. -/
def rectLoopPolygonize (segs : List (List (ℚ × ℚ))) : List GPoly :=
  match segs.flatMap id with
  | [] => []
  | p :: rest =>
    let minx := rest.foldl (fun m q => min m q.1) p.1
    let maxx := rest.foldl (fun m q => max m q.1) p.1
    let miny := rest.foldl (fun m q => min m q.2) p.2
    let maxy := rest.foldl (fun m q => max m q.2) p.2
    [{ coords := [(minx, miny), (maxx, miny), (maxx, maxy), (minx, maxy), (minx, miny)],
       area := (maxx - minx) * (maxy - miny) }]

/-- Four wall elements forming one closed 6000 × 4000 rectangular loop
(6 m × 4 m at millimetre scale), with no explicit room polygon. -/
def rectWalls : List GElem :=
  [{ elementType := "wall", points := [(0, 0), (6000, 0)] },
   { elementType := "wall", points := [(6000, 0), (6000, 4000)] },
   { elementType := "wall", points := [(6000, 4000), (0, 4000)] },
   { elementType := "wall", points := [(0, 4000), (0, 0)] }]

/-- The single space element synthesised from `rectWalls`. -/
def rectSpaceOut : GElem :=
  { elementType := "space", layer := "__generated_space__",
    points := [(0, 0), (6000, 0), (6000, 4000), (0, 4000), (0, 0)],
    generated := true, confidence := 45/100, area := some 24000000 }

/-- Replace the element at one position of a list (a Python list item
mutation); out-of-range positions leave the list unchanged. -/
def modifyAt {α : Type} : List α → ℕ → (α → α) → List α
  | [], _, _ => []
  | a :: l, 0, f => f a :: l
  | a :: l, n + 1, f => a :: modifyAt l n f

/-- Embedding of `next((record for record in spaces_payload if
record['element_index'] == idx_j), None)` in `_compute_relationships`:
the position of the first record carrying the given element index. -/
def findRecIdx (v : ℕ) : List (ℕ × List ℕ) → Option ℕ
  | [] => none
  | r :: l => if r.1 = v then some 0 else (findRecIdx v l).map (· + 1)

/-- The initial `spaces_payload` rows relevant to space-to-space adjacency:
one record per space with its `element_index` and an empty
`adjacent_spaces` list. -/
def adjInit (idxs : List ℕ) : List (ℕ × List ℕ) :=
  idxs.map (fun i => (i, []))

/-- Embedding of one iteration of the space-to-space adjacency loop of
`_compute_relationships` (src/backend/geometry_extractor.py) for the pair of
record positions `(i, j)` with `i < j`: the buffered-intersection test
`poly_i.buffer(tol).intersects(poly_j.buffer(tol))` is the abstract Boolean
function `f` (the geometry is delegated to shapely); on success `idx_j` is
appended to record i's list directly, and `idx_i` to the record found by the
`next(...)` search for `element_index == idx_j`. -/
def adjStep (idxs : List ℕ) (f : ℕ → ℕ → Bool) (payload : List (ℕ × List ℕ))
    (pr : ℕ × ℕ) : List (ℕ × List ℕ) :=
  if f pr.1 pr.2 then
    let vi := idxs.getD pr.1 0
    let vj := idxs.getD pr.2 0
    let p1 := modifyAt payload pr.1 (fun r => (r.1, r.2 ++ [vj]))
    match findRecIdx vj p1 with
    | some t => modifyAt p1 t (fun r => (r.1, r.2 ++ [vi]))
    | none => p1
  else payload

/-- The ordered pairs visited by the double loop
`for i in range(n): for j in range(i + 1, n)`. -/
def pairsList (n : ℕ) : List (ℕ × ℕ) :=
  (List.range n).flatMap (fun i =>
    ((List.range n).filter (fun j => i < j)).map (fun j => (i, j)))

/-- The space-to-space adjacency computation of `_compute_relationships`:
fold the per-pair step over all ordered pairs, starting from empty
adjacency lists. -/
def spaceAdjacency (idxs : List ℕ) (f : ℕ → ℕ → Bool) : List (ℕ × List ℕ) :=
  (pairsList idxs.length).foldl (adjStep idxs f) (adjInit idxs)

/-- Symmetry of the adjacency lists of a payload: space B is in space A's
`adjacent_spaces` exactly when A is in B's. -/
def SymAt (idxs : List ℕ) (payload : List (ℕ × List ℕ)) : Prop :=
  ∀ a b, a < idxs.length → b < idxs.length →
    (idxs.getD b 0 ∈ (payload.getD a (0, [])).2 ↔
     idxs.getD a 0 ∈ (payload.getD b (0, [])).2)

end GeomExt

-- ======================================================================
-- Lemmas and theorems
-- ======================================================================

namespace IfcGen

lemma normalizeCandidate_of_unusable (raw : Option ℚ) (s : ℚ)
    (h : rawUsable raw = false) : normalizeCandidate raw s = none := by
  cases raw with
  | none => rfl
  | some v =>
    have hv : v ≤ 0 := by
      have := h
      simp only [rawUsable, decide_eq_false_iff_not, not_lt] at this
      exact this
    simp [normalizeCandidate, hv]

/-- Claim C10: for any input value and positive unit scale, `_normalize_length`
returns at least `min_m / unit_scale`; it is strictly positive whenever
`min_m` is, and an unusable raw value (missing, non-numeric, zero or negative)
is replaced by the per-kind default (the result is then the larger of the
minimum floor and `default_m / scale`), so the extrusion dimensions built from
it are never zero or negative. -/
theorem normalize_length_never_degenerate (raw : Option ℚ) (dm mm us : ℚ)
    (hus : 0 < us) :
    mm / us ≤ normalizeLength raw dm mm us ∧
    (0 < mm → 0 < normalizeLength raw dm mm us) ∧
    (rawUsable raw = false → normalizeLength raw dm mm us = max (mm / us) (dm / us)) := by
  have hs : normalizeScale us = us := by simp [normalizeScale, hus.ne']
  have hmain : mm / us ≤ normalizeLength raw dm mm us := by
    simp only [normalizeLength, hs]
    split
    · exact le_max_left _ _
    · next h => exact le_of_not_lt h
  refine ⟨hmain, ?_, ?_⟩
  · intro hmm
    exact lt_of_lt_of_le (div_pos hmm hus) hmain
  · intro hraw
    simp only [normalizeLength, hs, normalizeCandidate_of_unusable raw us hraw]
    simp only [Option.getD_none]
    split
    · next h => rfl
    · next h =>
      have hle : mm / us ≤ dm / us := le_of_not_lt h
      rw [max_eq_right hle]

/-- Closed witness for claim C10: a missing raw value with wall-thickness
defaults (0.2 m default, 0.01 m floor) at millimetre scale. -/
theorem normalize_length_never_degenerate_witness :
    (1 : ℚ)/100 / (1/1000) ≤ normalizeLength none (2/10) (1/100) (1/1000) :=
  (normalize_length_never_degenerate none (2/10) (1/100) (1/1000) (by norm_num)).1

lemma scanBest_spec (p : ℚ × ℚ) :
    ∀ (l : List Seg) (acc : Option (ℕ × ℚ)) (i0 i : ℕ) (d : ℚ),
      scanBest p acc i0 l = some (i, d) →
      (∀ w ∈ l, d ≤ distSq p w) ∧
      (acc = some (i, d) ∨ ∃ k, ∃ hk : k < l.length, i = i0 + k ∧ distSq p (l.get ⟨k, hk⟩) = d) ∧
      (∀ bi bd, acc = some (bi, bd) → d ≤ bd) := by
  intro l
  induction l with
  | nil =>
    intro acc i0 i d h
    simp only [scanBest] at h
    refine ⟨by simp, Or.inl h, ?_⟩
    intro bi bd hacc
    rw [hacc] at h
    cases h
    exact le_refl _
  | cons w rest ih =>
    intro acc i0 i d h
    simp only [scanBest] at h
    cases acc with
    | none =>
      obtain ⟨h1, h2, h3⟩ := ih (some (i0, distSq p w)) (i0 + 1) i d h
      refine ⟨?_, ?_, ?_⟩
      · intro q hq
        rcases List.mem_cons.mp hq with hq | hq
        · rw [hq]; exact h3 i0 (distSq p w) rfl
        · exact h1 q hq
      · rcases h2 with h2 | ⟨k, hk, hik, hdk⟩
        · cases h2
          exact Or.inr ⟨0, by simp, by omega, rfl⟩
        · exact Or.inr ⟨k + 1, by simpa using hk, by omega, by simpa using hdk⟩
      · intro bi bd hacc
        cases hacc
    | some best =>
      obtain ⟨bi, bd⟩ := best
      dsimp only at h
      by_cases hlt : distSq p w < bd
      · rw [if_pos hlt] at h
        obtain ⟨h1, h2, h3⟩ := ih (some (i0, distSq p w)) (i0 + 1) i d h
        refine ⟨?_, ?_, ?_⟩
        · intro q hq
          rcases List.mem_cons.mp hq with hq | hq
          · rw [hq]; exact h3 i0 (distSq p w) rfl
          · exact h1 q hq
        · rcases h2 with h2 | ⟨k, hk, hik, hdk⟩
          · cases h2
            exact Or.inr ⟨0, by simp, by omega, rfl⟩
          · exact Or.inr ⟨k + 1, by simpa using hk, by omega, by simpa using hdk⟩
        · intro bi2 bd2 hacc
          cases hacc
          exact le_of_lt (lt_of_le_of_lt (h3 i0 (distSq p w) rfl) hlt)
      · rw [if_neg hlt] at h
        obtain ⟨h1, h2, h3⟩ := ih (some (bi, bd)) (i0 + 1) i d h
        refine ⟨?_, ?_, ?_⟩
        · intro q hq
          rcases List.mem_cons.mp hq with hq | hq
          · rw [hq]
            exact le_trans (h3 bi bd rfl) (le_of_not_lt hlt)
          · exact h1 q hq
        · rcases h2 with h2 | ⟨k, hk, hik, hdk⟩
          · exact Or.inl h2
          · exact Or.inr ⟨k + 1, by simpa using hk, by omega, by simpa using hdk⟩
        · intro bi2 bd2 hacc
          cases hacc
          exact h3 bi bd rfl

lemma scanBest_some_of_acc (p : ℚ × ℚ) :
    ∀ (l : List Seg) (bi i0 : ℕ) (bd : ℚ),
      ∃ i d, scanBest p (some (bi, bd)) i0 l = some (i, d) := by
  intro l
  induction l with
  | nil => intro bi i0 bd; exact ⟨bi, bd, rfl⟩
  | cons w rest ih =>
    intro bi i0 bd
    simp only [scanBest]
    by_cases hlt : distSq p w < bd
    · rw [if_pos hlt]; exact ih i0 (i0 + 1) (distSq p w)
    · rw [if_neg hlt]; exact ih bi (i0 + 1) bd

lemma filter_flatMap_nil {α : Type} (K : List α) (g : α → List Rel) (p : Rel → Bool)
    (hz : ∀ k ∈ K, (g k).filter p = []) :
    (K.flatMap g).filter p = [] := by
  induction K with
  | nil => rfl
  | cons k K ih =>
    simp only [List.flatMap_cons, List.filter_append]
    rw [hz k (List.mem_cons_self k K), ih (fun q hq => hz q (List.mem_cons_of_mem k hq))]
    rfl

lemma filter_flatMap_eq_single {α : Type} [DecidableEq α] (K : List α) (g : α → List Rel)
    (p : Rel → Bool) (d : α) (hmem : d ∈ K) (hnd : K.Nodup)
    (hz : ∀ k ∈ K, k ≠ d → (g k).filter p = []) :
    (K.flatMap g).filter p = (g d).filter p := by
  induction K with
  | nil => cases hmem
  | cons k K ih =>
    simp only [List.flatMap_cons, List.filter_append]
    by_cases hkd : k = d
    · subst hkd
      have hknotin : k ∉ K := (List.nodup_cons.mp hnd).1
      have : (K.flatMap g).filter p = [] := by
        apply filter_flatMap_nil
        intro q hq
        exact hz q (List.mem_cons_of_mem k hq) (fun hqd => hknotin (hqd ▸ hq))
      rw [this, List.append_nil]
    · rw [hz k (List.mem_cons_self k K) hkd]
      have hdK : d ∈ K := by
        rcases List.mem_cons.mp hmem with h | h
        · exact absurd h.symm hkd
        · exact h
      rw [ih hdK (List.nodup_cons.mp hnd).2
        (fun q hq hqd => hz q (List.mem_cons_of_mem k hq) hqd)]
      rfl

/-- Claim C1: whenever at least one wall segment was captured, host-wall
resolution for a door selects a wall whose 2D segment minimises the
point-to-segment distance from the door's anchor point — with no
maximum-distance cutoff (the statement carries no bound on that distance) —
and the relationship list built by the door loop contains exactly one Voids
relationship for that door's opening, relating the resolved host, and exactly
one Fills relationship, relating that opening to the door. -/
theorem host_wall_resolution (walls : List Seg) (doors : List (ℚ × ℚ))
    (hw : walls ≠ []) (d : ℕ) (hd : d < doors.length) :
    ∃ h, findHostWall walls (doors.getD d (0, 0)) = some h ∧
      ∃ hh : h < walls.length,
        (∀ w ∈ walls,
          distSq (doors.getD d (0, 0)) (walls.get ⟨h, hh⟩) ≤ distSq (doors.getD d (0, 0)) w) ∧
        (buildDoorRels walls doors).filter (voidsOf d) = [Rel.voids h d] ∧
        (buildDoorRels walls doors).filter (fillsOf d) = [Rel.fills d d] := by
  obtain ⟨w0, rest, rfl⟩ := List.exists_cons_of_ne_nil hw
  set p := doors.getD d (0, 0) with hp
  have hsome : ∃ i dd, scanBest p none 0 (w0 :: rest) = some (i, dd) := by
    simp only [scanBest]
    exact scanBest_some_of_acc p rest 0 1 (distSq p w0)
  obtain ⟨i, dd, hscan⟩ := hsome
  obtain ⟨h1, h2, _⟩ := scanBest_spec p (w0 :: rest) none 0 i dd hscan
  have hEx : ∃ hk : i < (w0 :: rest).length, distSq p ((w0 :: rest).get ⟨i, hk⟩) = dd := by
    rcases h2 with h2 | ⟨k, hk, hik, hdk⟩
    · cases h2
    · have : i = k := by omega
      subst this
      exact ⟨hk, hdk⟩
  obtain ⟨hh, hmin⟩ := hEx
  have hfind : findHostWall (w0 :: rest) p = some i := by
    simp [findHostWall, hscan]
  refine ⟨i, hfind, hh, ?_, ?_, ?_⟩
  · intro w hwmem
    rw [hmin]
    exact h1 w hwmem
  · rw [buildDoorRels]
    rw [filter_flatMap_eq_single (List.range doors.length) _ _ d
      (List.mem_range.mpr hd) (List.nodup_range _) ?hz]
    case hz =>
      intro k hk hkd
      unfold doorRelsFor
      cases findHostWall (w0 :: rest) (doors.getD k (0, 0)) with
      | none => rfl
      | some h2 =>
        simp [voidsOf, hkd]
    · unfold doorRelsFor
      rw [← hp, hfind]
      simp [voidsOf, fillsOf]
  · rw [buildDoorRels]
    rw [filter_flatMap_eq_single (List.range doors.length) _ _ d
      (List.mem_range.mpr hd) (List.nodup_range _) ?hz2]
    case hz2 =>
      intro k hk hkd
      unfold doorRelsFor
      cases findHostWall (w0 :: rest) (doors.getD k (0, 0)) with
      | none => rfl
      | some h2 =>
        simp [fillsOf, hkd]
    · unfold doorRelsFor
      rw [← hp, hfind]
      simp [voidsOf, fillsOf]

/-- Closed witness for claim C1: two horizontal walls and one door whose
anchor point is 995 units away from the closest wall (no cutoff: it is still
hosted). -/
theorem host_wall_resolution_witness :
    ∃ h, findHostWall [⟨(0, 0), (10, 0)⟩, ⟨(0, 5), (10, 5)⟩] ([((2 : ℚ), (1000 : ℚ))].getD 0 (0, 0)) = some h ∧
      ∃ hh : h < ([⟨(0, 0), (10, 0)⟩, ⟨(0, 5), (10, 5)⟩] : List Seg).length,
        (∀ w ∈ ([⟨(0, 0), (10, 0)⟩, ⟨(0, 5), (10, 5)⟩] : List Seg),
          distSq ([((2 : ℚ), (1000 : ℚ))].getD 0 (0, 0))
            (([⟨(0, 0), (10, 0)⟩, ⟨(0, 5), (10, 5)⟩] : List Seg).get ⟨h, hh⟩) ≤
          distSq ([((2 : ℚ), (1000 : ℚ))].getD 0 (0, 0)) w) ∧
        (buildDoorRels [⟨(0, 0), (10, 0)⟩, ⟨(0, 5), (10, 5)⟩] [((2 : ℚ), (1000 : ℚ))]).filter (voidsOf 0) =
          [Rel.voids h 0] ∧
        (buildDoorRels [⟨(0, 0), (10, 0)⟩, ⟨(0, 5), (10, 5)⟩] [((2 : ℚ), (1000 : ℚ))]).filter (fillsOf 0) =
          [Rel.fills 0 0] :=
  host_wall_resolution [⟨(0, 0), (10, 0)⟩, ⟨(0, 5), (10, 5)⟩] [((2 : ℚ), (1000 : ℚ))]
    (by simp) 0 (by norm_num)

/-- Claim C4, counterexample: in a drawing with two doors of different widths
(800 and 1500 units), the opening created for the SECOND door (index 1) is
sized with the FIRST door's width 800 — not with its own width 1500 as the
claim states. -/
theorem opening_not_sized_from_own_door :
    (buildDoorOpenings c4walls c4doors c4elements (1/1000)).getD 1 (0, 0, 0, 0) =
      (1, 800, 2100, 200) ∧
    claimDoorOpeningWidth c4elements 1 (1/1000) = 1500 ∧
    ((800 : ℚ)) ≠ 1500 := by
  have hwd : (strLower ("wall") == "door") = false := by decide
  have hdd : (strLower ("door") == "door") = true := by decide
  refine ⟨?_, ?_, by norm_num⟩
  · norm_num [buildDoorOpenings, doorOpeningSize, firstOfType, c4walls, c4doors,
      c4elements, findHostWall, scanBest, List.range_succ, normalizeLength,
      normalizeScale, normalizeCandidate, hwd, hdd, List.find?]
    rfl
  · norm_num [claimDoorOpeningWidth, doorElems, c4elements, normalizeLength,
      normalizeScale, normalizeCandidate, hwd, hdd, List.filter]

/-- Claim C4, amended: every opening produced by the door loop is sized from
the FIRST door element's width/height in the element list (defaults 0.9 m and
2.1 m) and its thickness from the first element of the list (default 0.2 m);
every opening produced by the window loop is sized from the FIRST window
element's width/height (defaults 1.2 m and 1.2 m) and its thickness is always
the 0.2 m default — the window loop never reads any element's thickness.
Sizing never depends on which opening is being built, so all door openings
of a drawing share one size, and likewise all window openings. -/
theorem opening_sizing_uniform (walls : List Seg)
    (doorsPos windowsPos : List (ℚ × ℚ)) (elements : List IElem) (us : ℚ) :
    (∀ q ∈ buildDoorOpenings walls doorsPos elements us,
      q.2 = doorOpeningSize elements us ∧
      q.2.1 = normalizeLength ((firstOfType elements ("door")).bind IElem.width)
        (9/10) (1/100) us ∧
      q.2.2.2 = normalizeLength ((elements.head?).bind IElem.thickness)
        (2/10) (1/100) us) ∧
    (∀ q ∈ buildWindowOpenings walls windowsPos elements us,
      q.2 = windowOpeningSize elements us ∧
      q.2.1 = normalizeLength ((firstOfType elements ("window")).bind IElem.width)
        (12/10) (1/100) us ∧
      q.2.2.2 = normalizeLength none (2/10) (1/100) us) ∧
    (∀ q ∈ buildDoorOpenings walls doorsPos elements us,
      ∀ r ∈ buildDoorOpenings walls doorsPos elements us, q.2 = r.2) ∧
    (∀ q ∈ buildWindowOpenings walls windowsPos elements us,
      ∀ r ∈ buildWindowOpenings walls windowsPos elements us, q.2 = r.2) := by
  have keyD : ∀ q ∈ buildDoorOpenings walls doorsPos elements us,
      q.2 = doorOpeningSize elements us := by
    intro q hq
    rw [buildDoorOpenings] at hq
    obtain ⟨k, _, hk⟩ := List.mem_filterMap.mp hq
    revert hk
    cases findHostWall walls (doorsPos.getD k (0, 0)) with
    | none => intro hk; cases hk
    | some h =>
      intro hk
      cases hk
      rfl
  have keyW : ∀ q ∈ buildWindowOpenings walls windowsPos elements us,
      q.2 = windowOpeningSize elements us := by
    intro q hq
    rw [buildWindowOpenings] at hq
    obtain ⟨k, _, hk⟩ := List.mem_filterMap.mp hq
    revert hk
    cases findHostWall walls (windowsPos.getD k (0, 0)) with
    | none => intro hk; cases hk
    | some h =>
      intro hk
      cases hk
      rfl
  refine ⟨?_, ?_, ?_, ?_⟩
  · intro q hq
    exact ⟨keyD q hq, by rw [keyD q hq]; rfl, by rw [keyD q hq]; rfl⟩
  · intro q hq
    exact ⟨keyW q hq, by rw [keyW q hq]; rfl, by rw [keyW q hq]; rfl⟩
  · intro q hq r hr
    rw [keyD q hq, keyD r hr]
  · intro q hq r hr
    rw [keyW q hq, keyW r hr]

/-- Closed witness for claim C4's amended theorem: in the counterexample
drawing (plus one window), the second door's opening and the window's opening
are both produced and carry the first-of-kind sizing. -/
theorem opening_sizing_uniform_witness :
    ((1, doorOpeningSize c4elements (1/1000)) : ℕ × ℚ × ℚ × ℚ).2.1 =
      normalizeLength ((firstOfType c4elements ("door")).bind IElem.width)
        (9/10) (1/100) (1/1000) ∧
    ((0, windowOpeningSize c4elements (1/1000)) : ℕ × ℚ × ℚ × ℚ).2.2.2 =
      normalizeLength none (2/10) (1/100) (1/1000) :=
  ⟨((opening_sizing_uniform c4walls c4doors c4windows c4elements (1/1000)).1
      (1, doorOpeningSize c4elements (1/1000))
      (by
        rw [show buildDoorOpenings c4walls c4doors c4elements (1/1000) =
          [(0, doorOpeningSize c4elements (1/1000)),
           (1, doorOpeningSize c4elements (1/1000))] from rfl]
        exact List.mem_cons_of_mem _ (List.mem_singleton_self _))).2.1,
   ((opening_sizing_uniform c4walls c4doors c4windows c4elements (1/1000)).2.1
      (0, windowOpeningSize c4elements (1/1000))
      (by
        rw [show buildWindowOpenings c4walls c4windows c4elements (1/1000) =
          [(0, windowOpeningSize c4elements (1/1000))] from rfl]
        exact List.mem_singleton_self _)).2.2⟩

lemma foldl_diff_isDiff :
    ∀ (l : List Solid) (a b : Solid), ∃ x y, l.foldl Solid.diff (Solid.diff a b) = Solid.diff x y := by
  intro l
  induction l with
  | nil => intro a b; exact ⟨a, b, rfl⟩
  | cons o t ih => intro a b; exact ih (Solid.diff a b) o

lemma foldl_diff_ne_extrusion (ops : List Solid) (eid : ℕ) (hne : ops ≠ []) :
    ops.foldl Solid.diff (Solid.extrusion eid) ≠ Solid.extrusion eid := by
  obtain ⟨o, t, rfl⟩ := List.exists_cons_of_ne_nil hne
  simp only [List.foldl_cons]
  obtain ⟨x, y, hxy⟩ := foldl_diff_isDiff t (Solid.extrusion eid) o
  rw [hxy]
  intro h
  cases h

/-- Claim C7: the boolean-clipping pass maps every product individually; a
product that is not a wall with a cached solid is left untouched, a wall with
zero resolved openings keeps its representation identical (the fold returns
the original extrusion node and the `base is not wall_solid` replacement test
fails), and a wall with at least one opening has its representation replaced
by the boolean difference chain `base_solid MINUS opening_1 MINUS ...`. -/
theorem clipping_only_alters_walls_with_openings (products : List Product)
    (wallSolids : List (ℕ × ℕ)) (openings : List (ℕ × List Solid)) :
    clipPass products wallSolids openings = products.map (clipProduct wallSolids openings) ∧
    ∀ p : Product,
      (lookupSolid wallSolids p.pid = none → clipProduct wallSolids openings p = p) ∧
      (∀ eid, lookupSolid wallSolids p.pid = some eid →
        (lookupOpenings openings p.pid = [] → clipProduct wallSolids openings p = p) ∧
        (lookupOpenings openings p.pid ≠ [] →
          clipProduct wallSolids openings p =
            { p with rep := some ((lookupOpenings openings p.pid).foldl Solid.diff
                (Solid.extrusion eid)) })) := by
  refine ⟨rfl, ?_⟩
  intro p
  constructor
  · intro hnone
    unfold clipProduct
    rw [hnone]
  · intro eid hsome
    constructor
    · intro hops
      unfold clipProduct
      rw [hsome]
      simp [hops]
    · intro hops
      unfold clipProduct
      rw [hsome]
      simp only [if_neg (foldl_diff_ne_extrusion _ eid hops)]

/-- Closed witness for claim C7: a wall with one opening is clipped, a wall
with no openings and a non-wall product are untouched. -/
theorem clipping_only_alters_walls_with_openings_witness :
    clipProduct [(0, 5), (1, 6)] [(0, [Solid.extrusion 9])] ⟨1, some (Solid.extrusion 6)⟩ =
      ⟨1, some (Solid.extrusion 6)⟩ ∧
    clipProduct [(0, 5), (1, 6)] [(0, [Solid.extrusion 9])] ⟨2, none⟩ = ⟨2, none⟩ ∧
    clipProduct [(0, 5), (1, 6)] [(0, [Solid.extrusion 9])] ⟨0, some (Solid.extrusion 5)⟩ =
      ⟨0, some (Solid.diff (Solid.extrusion 5) (Solid.extrusion 9))⟩ := by
  refine ⟨?_, ?_, ?_⟩
  · exact ((clipping_only_alters_walls_with_openings [] [(0, 5), (1, 6)]
      [(0, [Solid.extrusion 9])]).2 ⟨1, some (Solid.extrusion 6)⟩).2 6 (by rfl) |>.1 (by rfl)
  · exact ((clipping_only_alters_walls_with_openings [] [(0, 5), (1, 6)]
      [(0, [Solid.extrusion 9])]).2 ⟨2, none⟩).1 (by rfl)
  · exact ((clipping_only_alters_walls_with_openings [] [(0, 5), (1, 6)]
      [(0, [Solid.extrusion 9])]).2 ⟨0, some (Solid.extrusion 5)⟩).2 5 (by rfl) |>.2
      (by simp [lookupOpenings, List.find?])

end IfcGen

namespace DxfParse

lemma round3_of_mul_int (q : ℚ) (n : ℤ) (h : q * 1000 = (n : ℚ)) : round3 q = q := by
  rw [round3, h, round_intCast, ← h]
  ring

lemma round3_clamp (s : ℕ) :
    round3 (max (1/4) (min 1 ((s : ℚ) / 100))) = max (1/4) (min 1 ((s : ℚ) / 100)) := by
  rcases le_total ((s : ℚ) / 100) (1/4) with hle | hge
  · have hmin : min 1 ((s : ℚ) / 100) = (s : ℚ) / 100 :=
      min_eq_right (le_trans hle (by norm_num))
    rw [hmin, max_eq_left hle]
    exact round3_of_mul_int _ 250 (by norm_num)
  · rcases le_total ((s : ℚ) / 100) 1 with hle1 | hge1
    · have hmin : min 1 ((s : ℚ) / 100) = (s : ℚ) / 100 := min_eq_right hle1
      rw [hmin, max_eq_right hge]
      refine round3_of_mul_int _ (10 * (s : ℤ)) ?_
      push_cast
      ring
    · have hmin : min 1 ((s : ℚ) / 100) = 1 := min_eq_left hge1
      rw [hmin]
      have hmax : max ((1 : ℚ)/4) 1 = 1 := max_eq_right (by norm_num)
      rw [hmax]
      exact round3_of_mul_int _ 1000 (by norm_num)

lemma bestMatch_some_of_acc (b : LayerRule × ℕ) :
    ∀ l : List (LayerRule × ℕ), ∃ rs,
      l.foldl (fun acc m =>
        match acc with
        | none => some m
        | some b2 => if betterKey (m.2, m.1.priority) (b2.2, b2.1.priority) then some m
                     else some b2) (some b) = some rs := by
  intro l
  induction l generalizing b with
  | nil => exact ⟨b, rfl⟩
  | cons m rest ih =>
    simp only [List.foldl_cons]
    by_cases hb : betterKey (m.2, m.1.priority) (b.2, b.1.priority) = true
    · rw [hb]
      simp only [if_true]
      exact ih m
    · rw [Bool.not_eq_true] at hb
      rw [hb]
      simp only [Bool.false_eq_true, if_false]
      exact ih b

lemma bestMatch_some_of_ne_nil (l : List (LayerRule × ℕ)) (h : l ≠ []) :
    ∃ rs, bestMatch l = some rs := by
  obtain ⟨m, rest, rfl⟩ := List.exists_cons_of_ne_nil h
  simp only [bestMatch, List.foldl_cons]
  exact bestMatch_some_of_acc m rest

/-- Claim C9: for every layer name the classification confidence is in [0,1];
when some rule matches, the confidence equals `clamp(best score / 100, 0.25,
1.0)` (so in fact lies in [0.25,1]); when no rule matches the source is
`fallback` and the confidence is at most 0.2 — exactly 0.2 when the legacy
substring classifier finds a category and 0.0 with category `other`
otherwise. -/
theorem layer_confidence_bounds (name : String) :
    (0 ≤ (analyzeLayer name).confidence ∧ (analyzeLayer name).confidence ≤ 1) ∧
    (matchesFor name ≠ [] →
      ∃ r s, bestMatch (matchesFor name) = some (r, s) ∧
        (analyzeLayer name).confidence = max (1/4) (min 1 ((s : ℚ) / 100)) ∧
        (analyzeLayer name).source = "rule") ∧
    (matchesFor name = [] →
      (analyzeLayer name).source = "fallback" ∧
      (analyzeLayer name).confidence ≤ 1/5 ∧
      (legacyClassification (strUpper name) ≠ "other" →
        (analyzeLayer name).confidence = 1/5) ∧
      (legacyClassification (strUpper name) = "other" →
        (analyzeLayer name).confidence = 0 ∧
        (analyzeLayer name).classification = "other")) := by
  have hclamp_lb : ∀ s : ℕ, (0 : ℚ) ≤ max (1/4) (min 1 ((s : ℚ) / 100)) := by
    intro s
    exact le_trans (by norm_num) (le_max_left _ _)
  have hclamp_ub : ∀ s : ℕ, max (1/4) (min 1 ((s : ℚ) / 100)) ≤ 1 := by
    intro s
    apply max_le (by norm_num) (min_le_left _ _)
  refine ⟨?_, ?_, ?_⟩
  · unfold analyzeLayer
    cases hbm : bestMatch (matchesFor name) with
    | some rs =>
      obtain ⟨r, s⟩ := rs
      simp only [round3_clamp]
      exact ⟨hclamp_lb s, hclamp_ub s⟩
    | none =>
      by_cases hc : legacyClassification (strUpper name) ≠ "other"
      · simp only [if_pos hc]
        have : round3 ((1 : ℚ)/5) = 1/5 := round3_of_mul_int _ 200 (by norm_num)
        rw [this]
        norm_num
      · simp only [if_neg hc]
        have : round3 (0 : ℚ) = 0 := round3_of_mul_int _ 0 (by norm_num)
        rw [this]
        norm_num
  · intro hne
    obtain ⟨⟨r, s⟩, hbm⟩ := bestMatch_some_of_ne_nil (matchesFor name) hne
    refine ⟨r, s, hbm, ?_, ?_⟩
    · unfold analyzeLayer
      rw [hbm]
      exact round3_clamp s
    · unfold analyzeLayer
      rw [hbm]
  · intro hnil
    have hbm : bestMatch (matchesFor name) = none := by
      rw [hnil]
      rfl
    have h02 : round3 (0 : ℚ) = 0 := round3_of_mul_int _ 0 (by norm_num)
    have h15 : round3 ((1 : ℚ)/5) = 1/5 := round3_of_mul_int _ 200 (by norm_num)
    unfold analyzeLayer
    rw [hbm]
    by_cases hc : legacyClassification (strUpper name) ≠ "other"
    · simp only [if_pos hc, h15]
      refine ⟨by trivial, by norm_num, fun _ => by trivial, fun hco => absurd hco hc⟩
    · simp only [if_neg hc, h02]
      rw [Classical.not_not] at hc
      exact ⟨by trivial, by norm_num, fun hco => absurd hc hco, fun _ => ⟨by trivial, hc⟩⟩

/-- Closed witness for claim C9: the layer name `A-WALL` matches the wall rule
(score 111, confidence clamped to 1) and the bounds hold. -/
theorem layer_confidence_bounds_witness :
    (0 ≤ (analyzeLayer ("A-WALL")).confidence ∧ (analyzeLayer ("A-WALL")).confidence ≤ 1) ∧
    ∃ r s, bestMatch (matchesFor ("A-WALL")) = some (r, s) ∧
      (analyzeLayer ("A-WALL")).confidence = max (1/4) (min 1 ((s : ℚ) / 100)) ∧
      (analyzeLayer ("A-WALL")).source = "rule" :=
  ⟨(layer_confidence_bounds ("A-WALL")).1,
   (layer_confidence_bounds ("A-WALL")).2.1 (by decide)⟩

/-- Claim C2, counterexample: the layer name `EQP-1` matches the equipment
rule by its pattern `EQP-` alone (no keyword of the rule is among the expanded
tokens), and the code assigns score `10 = 10 × 1` — not
`priority + 6×0 + 10×1 = 78` as the claim's formula requires. -/
theorem rule_score_counterexample :
    (layerCategoryDefinitions.getD 13 default).category = "equipment" ∧
    ruleMatches ("EQP-1") (layerCategoryDefinitions.getD 13 default) = true ∧
    matchedKeywords ("EQP-1") (layerCategoryDefinitions.getD 13 default) = [] ∧
    patternHits ("EQP-1") (layerCategoryDefinitions.getD 13 default) = ["EQP-"] ∧
    ruleScore ("EQP-1") (layerCategoryDefinitions.getD 13 default) = 10 ∧
    (layerCategoryDefinitions.getD 13 default).priority +
      6 * (matchedKeywords ("EQP-1") (layerCategoryDefinitions.getD 13 default)).length +
      10 * (patternHits ("EQP-1") (layerCategoryDefinitions.getD 13 default)).length = 78 ∧
    (10 : ℕ) ≠ 78 := by
  refine ⟨by decide, by decide, by decide, by decide, by decide, by decide, by decide⟩

/-- Claim C2, amended: for every layer name and matching rule, the score is
`priority + 6×|matched keywords| + 10×|pattern hits|` when at least one
keyword matched, but only `10×|pattern hits|` — without the priority term —
when the rule matched by patterns alone. -/
theorem rule_score_formula (name : String) (rule : LayerRule)
    (hmem : rule ∈ layerCategoryDefinitions) (hm : ruleMatches name rule = true) :
    (matchedKeywords name rule ≠ [] →
      ruleScore name rule =
        rule.priority + 6 * (matchedKeywords name rule).length +
          10 * (patternHits name rule).length) ∧
    (matchedKeywords name rule = [] →
      ruleScore name rule = 10 * (patternHits name rule).length) := by
  constructor
  · intro h
    have hk : (matchedKeywords name rule).isEmpty = false := by
      simpa [List.isEmpty_iff] using h
    by_cases hp : patternHits name rule = []
    · simp [ruleScore, hk, hp]
    · have hp2 : (patternHits name rule).isEmpty = false := by
        simpa [List.isEmpty_iff] using hp
      simp [ruleScore, hk, hp2]
  · intro h
    have hk : (matchedKeywords name rule).isEmpty = true := by
      simpa [List.isEmpty_iff] using h
    by_cases hp : patternHits name rule = []
    · exfalso
      have : ruleMatches name rule = false := by
        simp [ruleMatches, hk, hp]
      rw [this] at hm
      cases hm
    · have hp2 : (patternHits name rule).isEmpty = false := by
        simpa [List.isEmpty_iff] using hp
      simp [ruleScore, hk, hp2]

/-- Closed witness for claim C2's amended theorem: the pattern-only match of
`EQP-1` on the equipment rule scores `10 × 1`. -/
theorem rule_score_formula_witness :
    ruleScore ("EQP-1") (layerCategoryDefinitions.getD 13 default) =
      10 * (patternHits ("EQP-1") (layerCategoryDefinitions.getD 13 default)).length :=
  (rule_score_formula ("EQP-1") (layerCategoryDefinitions.getD 13 default)
    (by decide) (by decide)).2 (by decide)

end DxfParse

namespace GeomExt

/-- Claim C5, counterexample: a drawing with no usable header units whose
bounding box has maximum dimension exactly 50 gets scale factor 1.0 (metres)
from the code — the strict `50 < max_dim` test fails and the metre interval
catches it — whereas the claim's interval `[50, 1000) → 0.01` demands 0.01. -/
theorem unit_inference_counterexample :
    inferScale ("") 0 (0, 0) (50, 50) = 1 ∧
    claimHeuristicScale 50 = 1/100 ∧
    ((1 : ℚ) ≠ 1/100) := by
  refine ⟨?_, ?_, by norm_num⟩
  · have h1 : lookupName (strLower ("")) = none := rfl
    have h2 : lookupCode 0 = none := rfl
    simp only [inferScale, h1, h2]
    norm_num [heuristicScale]
  · norm_num [claimHeuristicScale]

/-- Claim C5, amended: the scale factor is taken from the explicit header
unit name (or, failing that, code) whenever the lookup succeeds, and is then
independent of the bounding box (scaling all coordinates leaves it
unchanged); otherwise it is chosen from the bounding box's maximum dimension
with intervals OPEN at the left endpoint: (1000,100000)→0.001, then
(50,1000)→0.01, then (0.5,200)→1.0, else 0.001. -/
theorem unit_inference_header_and_heuristic :
    (∀ (un : String) (uc : ℤ) (b1 b2 b1' b2' : ℚ × ℚ) (s : ℚ),
      lookupName (strLower un) = some s →
      inferScale un uc b1 b2 = s ∧ inferScale un uc b1 b2 = inferScale un uc b1' b2') ∧
    (∀ (un : String) (uc : ℤ) (b1 b2 b1' b2' : ℚ × ℚ) (s : ℚ),
      lookupName (strLower un) = none → lookupCode uc = some s →
      inferScale un uc b1 b2 = s ∧ inferScale un uc b1 b2 = inferScale un uc b1' b2') ∧
    (∀ (un : String) (uc : ℤ) (b1 b2 : ℚ × ℚ),
      lookupName (strLower un) = none → lookupCode uc = none →
      inferScale un uc b1 b2 = heuristicScale (max |b2.1 - b1.1| |b2.2 - b1.2|)) ∧
    (heuristicScale 50 = 1 ∧ heuristicScale (1/2) = 1/1000 ∧
     heuristicScale 1000 = 1/1000 ∧
     ∀ d : ℚ, 50 < d → d < 200 → heuristicScale d = 1/100) := by
  refine ⟨?_, ?_, ?_, ?_, ?_, ?_, ?_⟩
  · intro un uc b1 b2 b1' b2' s h
    constructor
    · simp only [inferScale, h]
    · simp only [inferScale, h]
  · intro un uc b1 b2 b1' b2' s h1 h2
    constructor
    · simp only [inferScale, h1, h2]
    · simp only [inferScale, h1, h2]
  · intro un uc b1 b2 h1 h2
    simp only [inferScale, h1, h2]
  · norm_num [heuristicScale]
  · norm_num [heuristicScale]
  · norm_num [heuristicScale]
  · intro d hd1 hd2
    have hn1 : ¬(1000 < d ∧ d < 100000) := by
      intro h
      linarith [h.1]
    have h2 : 50 < d ∧ d < 1000 := ⟨hd1, by linarith⟩
    simp only [heuristicScale, if_neg hn1, if_pos h2]

/-- Closed witness for claim C5's amended theorem: explicit header units
`Meters` win over both a 50 × 50 and a 99999 × 99999 bounding box. -/
theorem unit_inference_header_witness :
    inferScale ("Meters") 3 (0, 0) (50, 50) = 1 ∧
    inferScale ("Meters") 3 (0, 0) (50, 50) = inferScale ("Meters") 3 (0, 0) (99999, 99999) :=
  unit_inference_header_and_heuristic.1 ("Meters") 3 (0, 0) (50, 50) (0, 0)
    (99999, 99999) 1 (by rfl)

/-- Claim C3, counterexample: the 3.0 m LINE on unclassified layer `"0"` is
classified `wall` by the geometry signal, but its final confidence is 0.90,
not (approximately) the 0.85 base: the 0.05 semantic-hit bonus is always
added, because the context tags contain the layer classification even for an
unclassified layer. -/
theorem element_confidence_counterexample :
    applyClassificationRules ("LINE") ("0") ("other") geomLine3m
      (buildLayerContext layerInfo0) (1/1000) = some ("wall", 9/10) ∧
    (DxfParse.analyzeLayer ("0")).classification = "other" ∧
    (DxfParse.analyzeLayer ("0")).source = "fallback" ∧
    ((9 : ℚ)/10 ≠ 85/100) := by
  have hq : decide (geomLine3m.length.getD 0 * (1/1000) > wallMinLenM) = true := by
    rw [decide_eq_true_eq]
    norm_num [geomLine3m, wallMinLenM]
  have hwall : isWall ("LINE") ("0") ("other") geomLine3m
      (buildLayerContext layerInfo0) (1/1000) = true := by
    simp only [isWall, hq]
    decide
  have hlc : (buildLayerContext layerInfo0).layerConfidence = 0 := rfl
  have hsem : (buildLayerContext layerInfo0).hasSemanticHit = true := by decide
  have hconf : confidenceFromContext (buildLayerContext layerInfo0) (85/100) = 9/10 := by
    rw [confidenceFromContext, hlc, hsem]
    norm_num
  refine ⟨?_, by decide, by decide, by norm_num⟩
  rw [applyClassificationRules, hwall]
  rw [if_pos rfl, hconf]

/-- Claim C3, amended: the LINE scenario classifies as `wall` via the
geometry signal alone (the layer carries no wall tag or token and zero layer
confidence), and the final confidence is exactly 0.90 = 0.85 base + 0.05
semantic-hit bonus: no layer-confidence bonus is added, but the semantic-hit
bonus always is, because `_build_layer_context` puts the classification
(`OTHER`) into the tags of every layer. -/
theorem element_confidence_geometry_wall :
    applyClassificationRules ("LINE") ("0") ("other") geomLine3m
      (buildLayerContext layerInfo0) (1/1000) = some ("wall", 9/10) ∧
    (buildLayerContext layerInfo0).layerConfidence = 0 ∧
    (buildLayerContext layerInfo0).hasSemanticHit = true ∧
    ((buildLayerContext layerInfo0).tags.contains ("WALL")) = false ∧
    ((buildLayerContext layerInfo0).tokens.contains ("WALL")) = false ∧
    confidenceFromContext (buildLayerContext layerInfo0) (85/100) = 85/100 + 5/100 := by
  have hq : decide (geomLine3m.length.getD 0 * (1/1000) > wallMinLenM) = true := by
    rw [decide_eq_true_eq]
    norm_num [geomLine3m, wallMinLenM]
  have hwall : isWall ("LINE") ("0") ("other") geomLine3m
      (buildLayerContext layerInfo0) (1/1000) = true := by
    simp only [isWall, hq]
    decide
  have hlc : (buildLayerContext layerInfo0).layerConfidence = 0 := rfl
  have hsem : (buildLayerContext layerInfo0).hasSemanticHit = true := by decide
  have hconf : confidenceFromContext (buildLayerContext layerInfo0) (85/100) = 9/10 := by
    rw [confidenceFromContext, hlc, hsem]
    norm_num
  refine ⟨?_, hlc, hsem, by decide, by decide, ?_⟩
  · rw [applyClassificationRules, hwall]
    rw [if_pos rfl, hconf]
  · rw [hconf]
    norm_num

end GeomExt

namespace GeomExt

/-- Claim C6: space synthesis returns nothing whenever a space/room/floor
element exists; every synthesised element is a `space` with
`properties.generated = true`, confidence 0.45, layer `__generated_space__`
and an area at least the minimum room area converted to drawing units; and
for one closed 6000 × 4000 rectangular wall loop at millimetre scale exactly
one space is synthesised, with the rectangle's area 24000000 = 6000 × 4000
square units (24 m²). -/
theorem space_synthesis :
    (∀ (f : List (List (ℚ × ℚ)) → List GPoly) (elems : List GElem) (s : ℚ),
      hasSpaceElem elems = true → ensureSpacesFromWalls f elems s = []) ∧
    (∀ (f : List (List (ℚ × ℚ)) → List GPoly) (elems : List GElem) (s : ℚ),
      s ≠ 0 → ∀ e ∈ ensureSpacesFromWalls f elems s,
      e.elementType = "space" ∧ e.generated = true ∧ e.confidence = 45/100 ∧
      e.layer = "__generated_space__" ∧
      ∃ a, e.area = some a ∧ spaceMinAreaM2 / s ^ 2 ≤ a) ∧
    (ensureSpacesFromWalls rectLoopPolygonize rectWalls (1/1000) = [rectSpaceOut] ∧
     (24000000 : ℚ) = 6000 * 4000) := by
  refine ⟨?_, ?_, ?_, by norm_num⟩
  · intro f elems s h
    simp [ensureSpacesFromWalls, h]
  · intro f elems s hs e he
    rw [ensureSpacesFromWalls] at he
    by_cases h1 : hasSpaceElem elems
    · simp [h1] at he
    · simp only [h1, if_false, Bool.false_eq_true] at he
      by_cases h2 : (wallLines elems).length < 3
      · simp [h2] at he
      · simp only [h2, if_false] at he
        obtain ⟨p, hp, rfl⟩ := List.mem_map.mp he
        have hfilt := List.of_mem_filter hp
        simp only [Bool.and_eq_true, Bool.not_eq_true', decide_eq_false_iff_not,
          not_lt] at hfilt
        refine ⟨rfl, rfl, rfl, rfl, p.area, rfl, ?_⟩
        have harea := hfilt.2
        rw [if_pos hs] at harea
        exact harea
  · have hsp : hasSpaceElem rectWalls = false := by decide
    have hwl : wallLines rectWalls =
        [[(0, 0), (6000, 0)], [(6000, 0), (6000, 4000)],
         [(6000, 4000), (0, 4000)], [(0, 4000), (0, 0)]] := by decide
    simp only [ensureSpacesFromWalls, hsp, hwl]
    norm_num [rectLoopPolygonize, rectSpaceOut, spaceMinAreaM2, min_def, max_def,
      List.flatMap, List.filter]

/-- Closed witness for claim C6: adding one explicit space element suppresses
synthesis entirely, and the rectangle's synthesised space satisfies all the
per-element properties. -/
theorem space_synthesis_witness :
    ensureSpacesFromWalls rectLoopPolygonize
      ({ elementType := "space" } :: rectWalls) (1/1000) = [] ∧
    (rectSpaceOut.elementType = "space" ∧ rectSpaceOut.generated = true ∧
     rectSpaceOut.confidence = 45/100 ∧ rectSpaceOut.layer = "__generated_space__" ∧
     ∃ a, rectSpaceOut.area = some a ∧ spaceMinAreaM2 / ((1 : ℚ)/1000) ^ 2 ≤ a) :=
  ⟨space_synthesis.1 rectLoopPolygonize ({ elementType := "space" } :: rectWalls)
      (1/1000) (by decide),
   space_synthesis.2.1 rectLoopPolygonize rectWalls (1/1000) (by norm_num) rectSpaceOut
      (by rw [space_synthesis.2.2.1]; exact List.mem_singleton_self _)⟩

end GeomExt

namespace GeomExt

lemma modifyAt_length {α : Type} (l : List α) (p : ℕ) (f : α → α) :
    (modifyAt l p f).length = l.length := by
  induction l generalizing p with
  | nil => rfl
  | cons a t ih =>
    cases p with
    | zero => rfl
    | succ n => simp [modifyAt, ih]

lemma modifyAt_map_fst (payload : List (ℕ × List ℕ)) (p : ℕ) (v : ℕ) :
    (modifyAt payload p (fun r => (r.1, r.2 ++ [v]))).map Prod.fst =
      payload.map Prod.fst := by
  induction payload generalizing p with
  | nil => rfl
  | cons a t ih =>
    cases p with
    | zero => rfl
    | succ n => simp only [modifyAt, List.map_cons, ih]

lemma modifyAt_getD_self {α : Type} (l : List α) (p : ℕ) (f : α → α) (d : α)
    (hp : p < l.length) : (modifyAt l p f).getD p d = f (l.getD p d) := by
  induction l generalizing p with
  | nil => simp at hp
  | cons a t ih =>
    cases p with
    | zero => rfl
    | succ n =>
      simp only [modifyAt, List.getD_cons_succ]
      exact ih n (by simpa using hp)

lemma modifyAt_getD_ne {α : Type} (l : List α) (p a : ℕ) (f : α → α) (d : α)
    (hne : a ≠ p) : (modifyAt l p f).getD a d = l.getD a d := by
  induction l generalizing p a with
  | nil => rfl
  | cons x t ih =>
    cases p with
    | zero =>
      cases a with
      | zero => exact absurd rfl hne
      | succ m => simp only [modifyAt, List.getD_cons_succ]
    | succ n =>
      cases a with
      | zero => rfl
      | succ m =>
        simp only [modifyAt, List.getD_cons_succ]
        exact ih n m (fun h => hne (by rw [h]))

lemma getD_mem_of_lt {α : Type} (l : List α) (k : ℕ) (d : α) (hk : k < l.length) :
    l.getD k d ∈ l := by
  rw [List.getD_eq_getElem l d hk]
  exact List.getElem_mem hk

lemma findRecIdx_eq (payload : List (ℕ × List ℕ)) (idxs : List ℕ)
    (hfst : payload.map Prod.fst = idxs) (hnd : idxs.Nodup) (j : ℕ)
    (hj : j < idxs.length) : findRecIdx (idxs.getD j 0) payload = some j := by
  induction payload generalizing idxs j with
  | nil =>
    subst hfst
    simp at hj
  | cons r t ih =>
    subst hfst
    simp only [List.map_cons] at hnd hj ⊢
    cases j with
    | zero =>
      simp [findRecIdx]
    | succ k =>
      have hk : k < (t.map Prod.fst).length := by simpa using hj
      have hmem : (t.map Prod.fst).getD k 0 ∈ t.map Prod.fst :=
        getD_mem_of_lt _ k 0 hk
      have hne : r.1 ≠ (t.map Prod.fst).getD k 0 := by
        intro h
        exact (List.nodup_cons.mp hnd).1 (h ▸ hmem)
      simp only [List.getD_cons_succ, findRecIdx, if_neg hne]
      rw [ih (t.map Prod.fst) rfl (List.nodup_cons.mp hnd).2 k hk]
      rfl

lemma nodup_getD_inj (idxs : List ℕ) (hnd : idxs.Nodup) (a b : ℕ)
    (ha : a < idxs.length) (hb : b < idxs.length)
    (h : idxs.getD a 0 = idxs.getD b 0) : a = b := by
  rw [List.getD_eq_getElem _ _ ha, List.getD_eq_getElem _ _ hb] at h
  have h2 : idxs.get ⟨a, ha⟩ = idxs.get ⟨b, hb⟩ := by
    rw [List.get_eq_getElem, List.get_eq_getElem]
    exact h
  have h3 := (List.Nodup.get_inj_iff hnd).mp h2
  exact congrArg Fin.val h3

end GeomExt

namespace GeomExt

lemma mem_adjStep (idxs : List ℕ) (f : ℕ → ℕ → Bool) (payload : List (ℕ × List ℕ))
    (i j a v : ℕ) (hfst : payload.map Prod.fst = idxs) (hnd : idxs.Nodup)
    (hi : i < idxs.length) (hj : j < idxs.length) (hij : i ≠ j) :
    (v ∈ ((adjStep idxs f payload (i, j)).getD a (0, [])).2 ↔
      (v ∈ (payload.getD a (0, [])).2 ∨
       (f i j = true ∧ ((a = i ∧ v = idxs.getD j 0) ∨ (a = j ∧ v = idxs.getD i 0))))) := by
  have hlen : payload.length = idxs.length := by
    rw [← hfst, List.length_map]
  unfold adjStep
  by_cases hf : f i j
  · rw [if_pos hf]
    have hfst1 : (modifyAt payload i (fun r => (r.1, r.2 ++ [idxs.getD j 0]))).map Prod.fst
        = idxs := by
      rw [modifyAt_map_fst, hfst]
    have hfind := findRecIdx_eq _ idxs hfst1 hnd j hj
    dsimp only
    rw [hfind]
    by_cases haj : a = j
    · subst haj
      rw [modifyAt_getD_self _ a _ _ (by rw [modifyAt_length, hlen]; exact hj)]
      rw [modifyAt_getD_ne _ i a _ _ (fun h => hij (h ▸ rfl))]
      simp only [List.mem_append, List.mem_singleton]
      constructor
      · rintro (h | h)
        · exact Or.inl h
        · exact Or.inr ⟨hf, Or.inr ⟨by trivial, h⟩⟩
      · rintro (h | ⟨-, (⟨h1, h2⟩ | ⟨-, h2⟩)⟩)
        · exact Or.inl h
        · exact absurd h1.symm hij
        · exact Or.inr h2
    · by_cases hai : a = i
      · subst hai
        rw [modifyAt_getD_ne _ j a _ _ haj]
        rw [modifyAt_getD_self _ a _ _ (by rw [hlen]; exact hi)]
        simp only [List.mem_append, List.mem_singleton]
        constructor
        · rintro (h | h)
          · exact Or.inl h
          · exact Or.inr ⟨hf, Or.inl ⟨by trivial, h⟩⟩
        · rintro (h | ⟨-, (⟨-, h2⟩ | ⟨h1, h2⟩)⟩)
          · exact Or.inl h
          · exact Or.inr h2
          · exact absurd h1 haj
      · rw [modifyAt_getD_ne _ j a _ _ haj, modifyAt_getD_ne _ i a _ _ hai]
        constructor
        · exact Or.inl
        · rintro (h | ⟨-, (⟨h1, -⟩ | ⟨h1, -⟩)⟩)
          · exact h
          · exact absurd h1 hai
          · exact absurd h1 haj
  · rw [if_neg hf]
    simp [hf]

end GeomExt

namespace GeomExt

lemma adjStep_fst (idxs : List ℕ) (f : ℕ → ℕ → Bool) (payload : List (ℕ × List ℕ))
    (pr : ℕ × ℕ) (hfst : payload.map Prod.fst = idxs) :
    (adjStep idxs f payload pr).map Prod.fst = idxs := by
  unfold adjStep
  by_cases hf : f pr.1 pr.2
  · rw [if_pos hf]
    dsimp only
    cases hfind : findRecIdx (idxs.getD pr.2 0)
        (modifyAt payload pr.1 (fun r => (r.1, r.2 ++ [idxs.getD pr.2 0]))) with
    | some t => rw [modifyAt_map_fst, modifyAt_map_fst, hfst]
    | none => rw [modifyAt_map_fst, hfst]
  · rw [if_neg hf]
    exact hfst

lemma adjStep_sym (idxs : List ℕ) (f : ℕ → ℕ → Bool) (payload : List (ℕ × List ℕ))
    (i j : ℕ) (hfst : payload.map Prod.fst = idxs) (hnd : idxs.Nodup)
    (hi : i < idxs.length) (hj : j < idxs.length) (hij : i ≠ j)
    (hsym : SymAt idxs payload) : SymAt idxs (adjStep idxs f payload (i, j)) := by
  intro a b ha hb
  rw [mem_adjStep idxs f payload i j a _ hfst hnd hi hj hij,
      mem_adjStep idxs f payload i j b _ hfst hnd hi hj hij]
  have hbj : (idxs.getD b 0 = idxs.getD j 0) ↔ b = j :=
    ⟨fun h => nodup_getD_inj idxs hnd b j hb hj h, fun h => by rw [h]⟩
  have hbi : (idxs.getD b 0 = idxs.getD i 0) ↔ b = i :=
    ⟨fun h => nodup_getD_inj idxs hnd b i hb hi h, fun h => by rw [h]⟩
  have haj : (idxs.getD a 0 = idxs.getD j 0) ↔ a = j :=
    ⟨fun h => nodup_getD_inj idxs hnd a j ha hj h, fun h => by rw [h]⟩
  have hai : (idxs.getD a 0 = idxs.getD i 0) ↔ a = i :=
    ⟨fun h => nodup_getD_inj idxs hnd a i ha hi h, fun h => by rw [h]⟩
  rw [hsym a b ha hb]
  simp only [hbj, hbi, haj, hai]
  tauto

lemma adjFold_sym (idxs : List ℕ) (f : ℕ → ℕ → Bool) (hnd : idxs.Nodup) :
    ∀ (P : List (ℕ × ℕ)) (payload : List (ℕ × List ℕ)),
      (∀ pr ∈ P, pr.1 < idxs.length ∧ pr.2 < idxs.length ∧ pr.1 ≠ pr.2) →
      payload.map Prod.fst = idxs → SymAt idxs payload →
      SymAt idxs (P.foldl (adjStep idxs f) payload) := by
  intro P
  induction P with
  | nil => intro payload _ _ hsym; exact hsym
  | cons pr t ih =>
    intro payload hP hfst hsym
    simp only [List.foldl_cons]
    obtain ⟨h1, h2, h3⟩ := hP pr (List.mem_cons_self pr t)
    apply ih
    · intro q hq
      exact hP q (List.mem_cons_of_mem pr hq)
    · exact adjStep_fst idxs f payload pr hfst
    · exact adjStep_sym idxs f payload pr.1 pr.2 hfst hnd h1 h2 h3 hsym

lemma adjInit_snd (idxs : List ℕ) (a : ℕ) :
    ((adjInit idxs).getD a (0, [])).2 = [] := by
  induction idxs generalizing a with
  | nil => cases a <;> rfl
  | cons x t ih =>
    cases a with
    | zero => rfl
    | succ n =>
      simp only [adjInit, List.map_cons, List.getD_cons_succ]
      exact ih n

lemma adjInit_fst (idxs : List ℕ) : (adjInit idxs).map Prod.fst = idxs := by
  induction idxs with
  | nil => rfl
  | cons x t ih =>
    simp only [adjInit, List.map_cons] at ih ⊢
    rw [ih]

lemma adjInit_sym (idxs : List ℕ) : SymAt idxs (adjInit idxs) := by
  intro a b _ _
  rw [adjInit_snd, adjInit_snd]
  simp

lemma pairsList_bounds (n : ℕ) :
    ∀ pr ∈ pairsList n, pr.1 < n ∧ pr.2 < n ∧ pr.1 ≠ pr.2 := by
  intro pr hpr
  simp only [pairsList, List.mem_flatMap, List.mem_map, List.mem_filter,
    List.mem_range, decide_eq_true_eq] at hpr
  obtain ⟨i, hi, j, ⟨hj, hij⟩, rfl⟩ := hpr
  exact ⟨hi, hj, Nat.ne_of_lt hij⟩

/-- Claim C8: space-to-space adjacency is symmetric: for any abstract
buffered-intersection test and any duplicate-free list of space element
indices, element B appears in A's `adjacent_spaces` exactly when A appears in
B's — the loop inserts both directions whenever its single intersection test
succeeds. -/
theorem space_adjacency_symmetric (idxs : List ℕ) (f : ℕ → ℕ → Bool)
    (hnd : idxs.Nodup) (a b : ℕ) (ha : a < idxs.length) (hb : b < idxs.length) :
    (idxs.getD b 0 ∈ ((spaceAdjacency idxs f).getD a (0, [])).2 ↔
     idxs.getD a 0 ∈ ((spaceAdjacency idxs f).getD b (0, [])).2) :=
  adjFold_sym idxs f hnd (pairsList idxs.length) (adjInit idxs)
    (pairsList_bounds idxs.length) (adjInit_fst idxs) (adjInit_sym idxs) a b ha hb

/-- Closed witness for claim C8: three spaces with element indices 3, 5, 9
and an asymmetric oracle (record 0 intersects everything). -/
theorem space_adjacency_symmetric_witness :
    (([3, 5, 9] : List ℕ).getD 1 0 ∈
      ((spaceAdjacency [3, 5, 9] (fun i _ => decide (i = 0))).getD 0 (0, [])).2 ↔
     ([3, 5, 9] : List ℕ).getD 0 0 ∈
      ((spaceAdjacency [3, 5, 9] (fun i _ => decide (i = 0))).getD 1 (0, [])).2) :=
  space_adjacency_symmetric [3, 5, 9] (fun i _ => decide (i = 0)) (by decide)
    0 1 (by decide) (by decide)

end GeomExt
